import Mathlib

/-!
# SQL segment store (storage/db/segment.go)

A shallow embedding of the `SegmentStore` of `storage/db/segment.go`.

* Section 1 is the data model: the rows of the `segments` and `constraints`
  tables, the request types, and Go `error` values.
* Section 2 is the boundary to the SQL statement builder and driver: the
  statements the file builds are data (`Stmt`, `SegmentQuery`,
  `ConstraintQuery`) and a `Driver` executes them.
* Section 3 translates the methods of `SegmentStore` one by one. A Go result
  `(*T, error)` is a pair `Option T × Option GoError`; methods that write also
  return the driver state after the call.
* Section 4 is an in-memory relational store (`memDriver`) for the two
  backends, and `interleaved`, a driver in which another session commits a
  statement after each write of this one.
* Section 5 has the lemmas, section 6 the theorems of the claims C1 to C10,
  each followed by an instance on sample data.

The clock (`proto.TimestampNow`) and the identifier generator (`uuid.NewV4`)
are arguments `now` and `id`.
-/

namespace Flipt

/-! ## 1. Data model -/

/-- Wire timestamp, as a count of clock ticks since the epoch. -/
abbrev Timestamp := Nat

/-- The `flipt.Constraint` message; also the shape of a row of table `constraints`
(columns id, segment_key, type, property, operator, value, created_at, updated_at). -/
structure Constraint where
  id : String
  segmentKey : String
  type : Int
  property : String
  operator : String
  value : String
  createdAt : Timestamp
  updatedAt : Timestamp
deriving DecidableEq, Repr

/-- A row of table `segments`
(columns key, name, description, match_type, created_at, updated_at). -/
structure SegmentRow where
  key : String
  name : String
  description : String
  matchType : Int
  createdAt : Timestamp
  updatedAt : Timestamp
deriving DecidableEq, Repr

/-- The `flipt.Segment` message. -/
structure Segment where
  key : String
  name : String
  description : String
  matchType : Int
  createdAt : Timestamp
  updatedAt : Timestamp
  constraints : List Constraint
deriving DecidableEq, Repr

structure CreateSegmentRequest where
  key : String
  name : String
  description : String
  matchType : Int
deriving DecidableEq, Repr

structure UpdateSegmentRequest where
  key : String
  name : String
  description : String
  matchType : Int
deriving DecidableEq, Repr

structure DeleteSegmentRequest where
  key : String
deriving DecidableEq, Repr

structure CreateConstraintRequest where
  segmentKey : String
  type : Int
  property : String
  operator : String
  value : String
deriving DecidableEq, Repr

structure UpdateConstraintRequest where
  id : String
  segmentKey : String
  type : Int
  property : String
  operator : String
  value : String
deriving DecidableEq, Repr

structure DeleteConstraintRequest where
  id : String
  segmentKey : String
deriving DecidableEq, Repr

/-- Go `error` values the store can see or return.

* `ErrNotFoundf format arg` is `errors.ErrNotFoundf(format, arg)`;
* `ErrInvalidf format arg` is `errors.ErrInvalidf(format, arg)`;
* `sqlite3Error code extendedCode` is a `sqlite3.Error` value;
* `pqError codeName` is a `*pq.Error` whose `Code.Name()` is `codeName`;
* `sqlErrNoRows` is `sql.ErrNoRows`;
* `other msg` is any other error value. -/
inductive GoError where
  | ErrNotFoundf (format : String) (arg : String)
  | ErrInvalidf (format : String) (arg : String)
  | sqlite3Error (code : Nat) (extendedCode : Nat)
  | pqError (codeName : String)
  | sqlErrNoRows
  | other (msg : String)
deriving DecidableEq, Repr

/-- The constant `sqlite3.ErrConstraint` of go-sqlite3 (SQLITE_CONSTRAINT). -/
def sqlite3ErrConstraint : Nat := 19

/-- Modelled from the spec: the package constant `pgConstraintUnique`, declared
outside segment.go; the name of the client-server engine's unique-violation code
(the name lib/pq gives to SQLSTATE 23505). -/
def pgConstraintUnique : String := "unique_violation"

/-- Modelled from the spec: the package constant `pgConstraintForeignKey`, declared
outside segment.go; the name of the client-server engine's foreign-key-violation
code (the name lib/pq gives to SQLSTATE 23503). -/
def pgConstraintForeignKey : String := "foreign_key_violation"

/-- What segment.go uses from other packages and cannot be read from it:
`strings.ToLower` and the key set of the map `flipt.NoValueOperators`. -/
structure Deps where
  ToLower : String → String
  NoValueOperators : List String

/-- The `storage.QueryParams` record (two unsigned counters). -/
structure QueryParams where
  Limit : Nat
  Offset : Nat
deriving DecidableEq, Repr

/-- A `storage.QueryOption`: a function that edits the parameters. -/
abbrev QueryOption := QueryParams → QueryParams

/-- The option `storage.WithLimit`. -/
def WithLimit (limit : Nat) : QueryOption := fun p => { p with Limit := limit }

/-- The option `storage.WithOffset`. -/
def WithOffset (offset : Nat) : QueryOption := fun p => { p with Offset := offset }

/-! ## 2. Statements and the driver boundary -/

/-- A SELECT on table `segments` as segment.go builds it. -/
structure SegmentQuery where
  whereKey : Option String
  orderByCreatedAtAsc : Bool
  limit : Option Nat
  offset : Option Nat
deriving DecidableEq, Repr

/-- The WHERE clauses segment.go uses on table `constraints`. -/
inductive ConstraintWhere where
  | segmentKey (segmentKey : String)
  | idAndSegmentKey (id : String) (segmentKey : String)
deriving DecidableEq, Repr

/-- A SELECT on table `constraints` as segment.go builds it. -/
structure ConstraintQuery where
  cond : ConstraintWhere
  orderByCreatedAtAsc : Bool
deriving DecidableEq, Repr

/-- The INSERT, UPDATE and DELETE statements segment.go builds. -/
inductive Stmt where
  | insertSegment (row : SegmentRow)
  | updateSegment (name : String) (description : String) (matchType : Int)
      (updatedAt : Timestamp) (whereKey : String)
  | deleteSegment (whereKey : String)
  | insertConstraint (row : Constraint)
  | updateConstraint (type : Int) (property : String) (operator : String) (value : String)
      (updatedAt : Timestamp) (whereId : String) (whereSegmentKey : String)
  | deleteConstraint (whereId : String) (whereSegmentKey : String)
deriving DecidableEq, Repr

/-- An `sql.Result`: what `RowsAffected()` returns. -/
structure ExecResult where
  rowsAffected : Except GoError Int

/-- An `sql.Rows` cursor: the rows that `Next`/`Scan` deliver, then the error
(if any) that ends the iteration, from `Scan` or from `rows.Err()`. -/
structure Rows (α : Type) where
  scanned : List α
  err : Option GoError

/-- The statement builder bound to a connection. `σ` is the state of the
backing store; `exec` is `ExecContext`, the queries are `QueryContext`. -/
structure Driver (σ : Type) where
  exec : σ → Stmt → σ × Except GoError ExecResult
  querySegments : σ → SegmentQuery → Except GoError (Rows SegmentRow)
  queryConstraints : σ → ConstraintQuery → Except GoError (Rows Constraint)

/-- The call `QueryRowContext(ctx).Scan(...)` of database/sql: the first row,
`sql.ErrNoRows` when the cursor ends without a row. -/
def scanRow {α : Type} (res : Except GoError (Rows α)) : Except GoError α :=
  match res with
  | .error err => .error err
  | .ok rows =>
    match rows.scanned with
    | row :: _ => .ok row
    | [] =>
      match rows.err with
      | some err => .error err
      | none => .error GoError.sqlErrNoRows

/-! ## 3. The methods of `SegmentStore` -/

/-- The method `constraints`: loads the constraints of `segment`, appending
them to `segment.Constraints`; the segment is updated in place, so it is
returned next to the error. -/
def constraints {σ : Type} (d : Driver σ) (s : σ) (segment : Segment) :
    Segment × Option GoError :=
  match d.queryConstraints s
      { cond := ConstraintWhere.segmentKey segment.key, orderByCreatedAtAsc := true } with
  | .error err => (segment, some err)
  | .ok rows => ({ segment with constraints := segment.constraints ++ rows.scanned }, rows.err)

/-- Decoding of a scanned `segments` row into a fresh `flipt.Segment`. -/
def scanSegment (row : SegmentRow) : Segment :=
  { key := row.key, name := row.name, description := row.description,
    matchType := row.matchType, createdAt := row.createdAt, updatedAt := row.updatedAt,
    constraints := [] }

/-- The columns of a `flipt.Segment` that come from its row. -/
def Segment.row (segment : Segment) : SegmentRow :=
  { key := segment.key, name := segment.name, description := segment.description,
    matchType := segment.matchType, createdAt := segment.createdAt,
    updatedAt := segment.updatedAt }

/-- GetSegment gets a segment. -/
def GetSegment {σ : Type} (d : Driver σ) (s : σ) (key : String) :
    Option Segment × Option GoError :=
  match scanRow (d.querySegments s
      { whereKey := some key, orderByCreatedAtAsc := false, limit := none, offset := none }) with
  | .error err =>
    if err = GoError.sqlErrNoRows then
      (none, some (GoError.ErrNotFoundf "segment %q" key))
    else
      (none, some err)
  | .ok row =>
    match constraints d s (scanSegment row) with
    | (segment, some err) => (some segment, some err)
    | (segment, none) => (some segment, none)

/-- The row loop of ListSegments: `segments` is the slice built so far. -/
def listRows {σ : Type} (d : Driver σ) (s : σ) :
    List SegmentRow → List Segment → List Segment × Option GoError
  | [], segments => (segments, none)
  | row :: rest, segments =>
    match constraints d s (scanSegment row) with
    | (_, some err) => (segments, some err)
    | (segment, none) => listRows d s rest (segments ++ [segment])

/-- The parameters after every option has been applied to a zeroed `QueryParams`. -/
def queryParams (opts : List QueryOption) : QueryParams :=
  opts.foldl (fun p opt => opt p) { Limit := 0, Offset := 0 }

/-- ListSegments lists all segments. -/
def ListSegments {σ : Type} (d : Driver σ) (s : σ) (opts : List QueryOption) :
    List Segment × Option GoError :=
  let query : SegmentQuery :=
    { whereKey := none, orderByCreatedAtAsc := true, limit := none, offset := none }
  let params : QueryParams := queryParams opts
  let query := if params.Limit > 0 then { query with limit := some params.Limit } else query
  let query := if params.Offset > 0 then { query with offset := some params.Offset } else query
  match d.querySegments s query with
  | .error err => ([], some err)
  | .ok rows =>
    match listRows d s rows.scanned [] with
    | (segments, some err) => (segments, some err)
    | (segments, none) => (segments, rows.err)

/-- CreateSegment creates a segment. -/
def CreateSegment {σ : Type} (d : Driver σ) (s : σ) (now : Timestamp)
    (r : CreateSegmentRequest) : σ × Option Segment × Option GoError :=
  let segment : Segment :=
    { key := r.key, name := r.name, description := r.description, matchType := r.matchType,
      createdAt := now, updatedAt := now, constraints := [] }
  let query := Stmt.insertSegment
    { key := segment.key, name := segment.name, description := segment.description,
      matchType := segment.matchType, createdAt := segment.createdAt,
      updatedAt := segment.updatedAt }
  match d.exec s query with
  | (s', .error err) =>
    match err with
    | GoError.sqlite3Error code _ =>
      if code = sqlite3ErrConstraint then
        (s', none, some (GoError.ErrInvalidf "segment %q is not unique" r.key))
      else
        (s', none, some err)
    | GoError.pqError codeName =>
      if codeName = pgConstraintUnique then
        (s', none, some (GoError.ErrInvalidf "segment %q is not unique" r.key))
      else
        (s', none, some err)
    | _ => (s', none, some err)
  | (s', .ok _) => (s', some segment, none)

/-- UpdateSegment updates an existing segment. -/
def UpdateSegment {σ : Type} (d : Driver σ) (s : σ) (now : Timestamp)
    (r : UpdateSegmentRequest) : σ × Option Segment × Option GoError :=
  let query := Stmt.updateSegment r.name r.description r.matchType now r.key
  match d.exec s query with
  | (s', .error err) => (s', none, some err)
  | (s', .ok res) =>
    match res.rowsAffected with
    | .error err => (s', none, some err)
    | .ok count =>
      if count ≠ 1 then
        (s', none, some (GoError.ErrNotFoundf "segment %q" r.key))
      else
        (s', GetSegment d s' r.key)

/-- DeleteSegment deletes a segment. -/
def DeleteSegment {σ : Type} (d : Driver σ) (s : σ) (r : DeleteSegmentRequest) :
    σ × Option GoError :=
  match d.exec s (Stmt.deleteSegment r.key) with
  | (s', .error err) => (s', some err)
  | (s', .ok _) => (s', none)

/-- CreateConstraint creates a constraint. -/
def CreateConstraint {σ : Type} (deps : Deps) (d : Driver σ) (s : σ) (now : Timestamp)
    (id : String) (r : CreateConstraintRequest) : σ × Option Constraint × Option GoError :=
  let operator := deps.ToLower r.operator
  let c : Constraint :=
    { id := id, segmentKey := r.segmentKey, type := r.type, property := r.property,
      operator := operator, value := r.value, createdAt := now, updatedAt := now }
  -- unset value if operator does not require it
  let c : Constraint := if c.operator ∈ deps.NoValueOperators then { c with value := "" } else c
  let query := Stmt.insertConstraint c
  match d.exec s query with
  | (s', .error err) =>
    match err with
    | GoError.sqlite3Error code _ =>
      if code = sqlite3ErrConstraint then
        (s', none, some (GoError.ErrNotFoundf "segment %q" r.segmentKey))
      else
        (s', none, some err)
    | GoError.pqError codeName =>
      if codeName = pgConstraintForeignKey then
        (s', none, some (GoError.ErrNotFoundf "segment %q" r.segmentKey))
      else
        (s', none, some err)
    | _ => (s', none, some err)
  | (s', .ok _) => (s', some c, none)

/-- UpdateConstraint updates an existing constraint. -/
def UpdateConstraint {σ : Type} (deps : Deps) (d : Driver σ) (s : σ) (now : Timestamp)
    (r : UpdateConstraintRequest) : σ × Option Constraint × Option GoError :=
  let operator := deps.ToLower r.operator
  -- unset value if operator does not require it
  let value := if operator ∈ deps.NoValueOperators then "" else r.value
  match d.exec s
      (Stmt.updateConstraint r.type r.property operator value now r.id r.segmentKey) with
  | (s', .error err) => (s', none, some err)
  | (s', .ok res) =>
    match res.rowsAffected with
    | .error err => (s', none, some err)
    | .ok count =>
      if count ≠ 1 then
        (s', none, some (GoError.ErrNotFoundf "constraint %q" r.id))
      else
        match scanRow (d.queryConstraints s'
            { cond := ConstraintWhere.idAndSegmentKey r.id r.segmentKey,
              orderByCreatedAtAsc := false }) with
        | .error err => (s', none, some err)
        | .ok c => (s', some c, none)

/-- DeleteConstraint deletes a constraint. -/
def DeleteConstraint {σ : Type} (d : Driver σ) (s : σ) (r : DeleteConstraintRequest) :
    σ × Option GoError :=
  match d.exec s (Stmt.deleteConstraint r.id r.segmentKey) with
  | (s', .error err) => (s', some err)
  | (s', .ok _) => (s', none)

/-! ## 4. An in-memory backing store -/

/-- The two SQL engines the store is written for. -/
inductive Backend where
  | sqlite3
  | postgres
deriving DecidableEq, Repr

/-- The contents of the two tables, each in insertion order. -/
structure MemStore where
  segments : List SegmentRow
  constraints : List Constraint
deriving DecidableEq, Repr

/-- The schema invariant of the tables: `segments.key` and `constraints.id`
are primary keys. -/
def MemStore.wf (db : MemStore) : Prop :=
  (db.segments.map (fun x => x.key)).Nodup ∧ (db.constraints.map (fun c => c.id)).Nodup

instance (db : MemStore) : Decidable db.wf := by
  unfold MemStore.wf; exact inferInstance

/-- The error a backend reports when an INSERT breaks a primary key: the
embedded engine its generic constraint code (19, extended code 1555), the
client-server engine the code named `unique_violation`. -/
def uniqueViolation : Backend → GoError
  | Backend.sqlite3 => GoError.sqlite3Error 19 1555
  | Backend.postgres => GoError.pqError "unique_violation"

/-- The error a backend reports when an INSERT breaks a foreign key: the
embedded engine its generic constraint code (19, extended code 787), the
client-server engine the code named `foreign_key_violation`. -/
def foreignKeyViolation : Backend → GoError
  | Backend.sqlite3 => GoError.sqlite3Error 19 787
  | Backend.postgres => GoError.pqError "foreign_key_violation"

/-- ORDER BY created_at ASC on segment rows; rows with equal time keep table order. -/
def orderSegments (rows : List SegmentRow) : List SegmentRow :=
  rows.insertionSort (fun a b => a.createdAt ≤ b.createdAt)

/-- ORDER BY created_at ASC on constraint rows; rows with equal time keep table order. -/
def orderConstraints (rows : List Constraint) : List Constraint :=
  rows.insertionSort (fun a b => a.createdAt ≤ b.createdAt)

/-- OFFSET then LIMIT, each applied only when the statement carries it. -/
def page {α : Type} (limit : Option Nat) (offset : Option Nat) (rows : List α) : List α :=
  let rows := match offset with
    | some n => rows.drop n
    | none => rows
  match limit with
  | some n => rows.take n
  | none => rows

/-- Evaluation of a WHERE clause of table `constraints` on a row. -/
def ConstraintWhere.holds : ConstraintWhere → Constraint → Bool
  | ConstraintWhere.segmentKey k, c => c.segmentKey == k
  | ConstraintWhere.idAndSegmentKey id k, c => c.id == id && c.segmentKey == k

/-- Modelled from the spec: the SQL engine and the schema, which are outside
segment.go. `segments.key` and `constraints.id` are primary keys,
`constraints.segment_key` references `segments.key`; `cascade` says whether
deleting a segment also deletes its constraints (a schema concern the spec
leaves open). UPDATE and DELETE report the number of rows their WHERE clause
matched. -/
def memExec (b : Backend) (cascade : Bool) (db : MemStore) :
    Stmt → MemStore × Except GoError ExecResult
  | Stmt.insertSegment row =>
    if db.segments.any (fun x => x.key == row.key) then
      (db, .error (uniqueViolation b))
    else
      ({ db with segments := db.segments ++ [row] }, .ok { rowsAffected := .ok 1 })
  | Stmt.updateSegment name description matchType updatedAt whereKey =>
    ({ db with segments := db.segments.map (fun x =>
          if x.key = whereKey then
            { x with name := name, description := description, matchType := matchType,
                     updatedAt := updatedAt }
          else x) },
      .ok { rowsAffected := .ok (db.segments.filter (fun x => x.key == whereKey)).length })
  | Stmt.deleteSegment whereKey =>
    let n := (db.segments.filter (fun x => x.key == whereKey)).length
    ({ segments := db.segments.filter (fun x => !(x.key == whereKey)),
       constraints :=
         if cascade = true ∧ 0 < n then
           db.constraints.filter (fun c => !(c.segmentKey == whereKey))
         else db.constraints },
      .ok { rowsAffected := .ok n })
  | Stmt.insertConstraint row =>
    if db.constraints.any (fun c => c.id == row.id) then
      (db, .error (uniqueViolation b))
    else if db.segments.any (fun x => x.key == row.segmentKey) then
      ({ db with constraints := db.constraints ++ [row] }, .ok { rowsAffected := .ok 1 })
    else
      (db, .error (foreignKeyViolation b))
  | Stmt.updateConstraint type property operator value updatedAt whereId whereSegmentKey =>
    ({ db with constraints := db.constraints.map (fun c =>
          if c.id = whereId ∧ c.segmentKey = whereSegmentKey then
            { c with type := type, property := property, operator := operator,
                     value := value, updatedAt := updatedAt }
          else c) },
      .ok { rowsAffected := .ok (db.constraints.filter
          (ConstraintWhere.holds (ConstraintWhere.idAndSegmentKey whereId whereSegmentKey))).length })
  | Stmt.deleteConstraint whereId whereSegmentKey =>
    ({ db with constraints := db.constraints.filter (fun c =>
          !(ConstraintWhere.holds (ConstraintWhere.idAndSegmentKey whereId whereSegmentKey) c)) },
      .ok { rowsAffected := .ok (db.constraints.filter
          (ConstraintWhere.holds (ConstraintWhere.idAndSegmentKey whereId whereSegmentKey))).length })

/-- The largest operand LIMIT and OFFSET accept is the largest signed 64-bit
integer; `outOfRange` says that a clause is present with an operand beyond it. -/
def outOfRange : Option Nat → Bool
  | some n => decide (2 ^ 63 ≤ n)
  | none => false

/-- The error a backend reports for a LIMIT or OFFSET operand beyond the signed
64-bit range: the embedded engine its code 20 (datatype mismatch), the
client-server engine the code named `numeric_value_out_of_range`. -/
def rangeError : Backend → GoError
  | Backend.sqlite3 => GoError.sqlite3Error 20 20
  | Backend.postgres => GoError.pqError "numeric_value_out_of_range"

/-- Modelled from the spec: SELECT on table `segments` (filter, order, page).
Two statements are rejected instead of evaluated: the embedded engine has no
OFFSET clause without a LIMIT clause and answers such a statement with its
generic error code 1 (syntax error), on any table contents; and both engines
reject a LIMIT or OFFSET operand of 2^63 or more. -/
def memQuerySegments (b : Backend) (db : MemStore) (q : SegmentQuery) :
    Except GoError (Rows SegmentRow) :=
  if b = Backend.sqlite3 ∧ q.offset.isSome = true ∧ q.limit.isNone = true then
    .error (GoError.sqlite3Error 1 1)
  else if outOfRange q.limit = true ∨ outOfRange q.offset = true then
    .error (rangeError b)
  else
    let rows := match q.whereKey with
      | some key => db.segments.filter (fun x => x.key == key)
      | none => db.segments
    let rows := if q.orderByCreatedAtAsc then orderSegments rows else rows
    .ok { scanned := page q.limit q.offset rows, err := none }

/-- Modelled from the spec: SELECT on table `constraints` (filter, order). -/
def memQueryConstraints (db : MemStore) (q : ConstraintQuery) :
    Except GoError (Rows Constraint) :=
  let rows := db.constraints.filter q.cond.holds
  let rows := if q.orderByCreatedAtAsc then orderConstraints rows else rows
  .ok { scanned := rows, err := none }

/-- The in-memory store as a driver. -/
def memDriver (b : Backend) (cascade : Bool) : Driver MemStore :=
  { exec := memExec b cascade
    querySegments := memQuerySegments b
    queryConstraints := memQueryConstraints }

/-- A driver on which another session commits `other` right after each
statement this session executes, before its next round trip. -/
def interleaved {σ : Type} (d : Driver σ) (other : Stmt) : Driver σ :=
  { exec := fun s stmt =>
      match d.exec s stmt with
      | (s', res) => ((d.exec s' other).1, res)
    querySegments := d.querySegments
    queryConstraints := d.queryConstraints }

/-- Lowercasing of the ASCII letters of a string, an instance of `strings.ToLower`
on ASCII input. -/
def asciiLower (s : String) : String := String.mk (s.data.map Char.toLower)

/-- A sample of dependencies: ASCII lowercasing and three value-less operators. -/
def sampleDeps : Deps :=
  { ToLower := asciiLower, NoValueOperators := ["present", "notpresent", "empty"] }

/-- A sample segment row. -/
def sampleRow : SegmentRow :=
  { key := "s1", name := "n", description := "d", matchType := 0, createdAt := 1,
    updatedAt := 1 }

/-- A sample constraint of the sample segment. -/
def sampleConstraint : Constraint :=
  { id := "c1", segmentKey := "s1", type := 1, property := "plan", operator := "eq",
    value := "pro", createdAt := 2, updatedAt := 2 }

/-- A sample store: one segment with one constraint. -/
def sampleStore : MemStore :=
  { segments := [sampleRow], constraints := [sampleConstraint] }

/-- A store with five segments in creation order and three constraints of the
first one, in creation order. -/
def listStore : MemStore :=
  { segments :=
      [{ key := "a", name := "A", description := "", matchType := 0, createdAt := 1,
         updatedAt := 1 },
       { key := "b", name := "B", description := "", matchType := 0, createdAt := 2,
         updatedAt := 2 },
       { key := "c", name := "C", description := "", matchType := 1, createdAt := 3,
         updatedAt := 3 },
       { key := "d", name := "D", description := "", matchType := 0, createdAt := 4,
         updatedAt := 4 },
       { key := "e", name := "E", description := "", matchType := 0, createdAt := 5,
         updatedAt := 5 }],
    constraints :=
      [{ id := "k1", segmentKey := "a", type := 1, property := "p1", operator := "eq",
         value := "1", createdAt := 6, updatedAt := 6 },
       { id := "k2", segmentKey := "b", type := 1, property := "p2", operator := "eq",
         value := "2", createdAt := 7, updatedAt := 7 },
       { id := "k3", segmentKey := "a", type := 1, property := "p3", operator := "neq",
         value := "3", createdAt := 8, updatedAt := 8 },
       { id := "k4", segmentKey := "a", type := 1, property := "p4", operator := "present",
         value := "", createdAt := 9, updatedAt := 9 }] }

/-- A request to create a constraint of segment "s1" with a no-value operator in capitals. -/
def samplePresentRequest : CreateConstraintRequest :=
  { segmentKey := "s1", type := 1, property := "beta", operator := "PRESENT", value := "x" }

/-- The constraint that `samplePresentRequest` creates at time 5 under id "c2". -/
def samplePresent : Constraint :=
  { id := "c2", segmentKey := "s1", type := 1, property := "beta", operator := "present",
    value := "", createdAt := 5, updatedAt := 5 }

/-- The sample store after `samplePresent` has been appended. -/
def samplePresentStore : MemStore :=
  { sampleStore with constraints := sampleStore.constraints ++ [samplePresent] }

/-- A request to create a constraint of segment "s1" with an operator that takes a value. -/
def sampleValueRequest : CreateConstraintRequest :=
  { segmentKey := "s1", type := 1, property := "plan", operator := "EQ", value := "pro" }

/-- The constraint that `sampleValueRequest` creates at time 5 under id "c2". -/
def sampleValue : Constraint :=
  { id := "c2", segmentKey := "s1", type := 1, property := "plan", operator := "eq",
    value := "pro", createdAt := 5, updatedAt := 5 }

/-- A request to update constraint "c1" of segment "s1" with an operator that takes a value. -/
def sampleValueUpdate : UpdateConstraintRequest :=
  { id := "c1", segmentKey := "s1", type := 1, property := "plan", operator := "EQ",
    value := "team" }

/-- A request to create a constraint of a segment that does not exist. -/
def sampleOrphanRequest : CreateConstraintRequest :=
  { segmentKey := "nope", type := 1, property := "beta", operator := "eq", value := "x" }

/-- A request to update constraint "c1" of segment "s1". -/
def sampleUpdateConstraint : UpdateConstraintRequest :=
  { id := "c1", segmentKey := "s1", type := 1, property := "plan", operator := "PRESENT",
    value := "x" }

/-- A request to update constraint "c1" under a segment key that is not its own. -/
def sampleWrongSegment : UpdateConstraintRequest :=
  { id := "c1", segmentKey := "s2", type := 1, property := "plan", operator := "eq",
    value := "team" }

/-- A request to update segment "s1". -/
def sampleUpdateSegment : UpdateSegmentRequest :=
  { key := "s1", name := "N", description := "D", matchType := 1 }

/-- A request to create a segment whose key is new to `sampleStore`. -/
def sampleNewSegment : CreateSegmentRequest :=
  { key := "s2", name := "two", description := "second", matchType := 1 }

/-- A request to create a segment whose key `sampleStore` already has. -/
def sampleDuplicateSegment : CreateSegmentRequest :=
  { key := "s1", name := "again", description := "", matchType := 0 }

/-- A segment row of the in-memory store, decoded and given the constraint rows
of its key in ascending createdAt order. -/
def memSegment (db : MemStore) (row : SegmentRow) : Segment :=
  { key := row.key, name := row.name, description := row.description,
    matchType := row.matchType, createdAt := row.createdAt, updatedAt := row.updatedAt,
    constraints := orderConstraints (db.constraints.filter (fun c => c.segmentKey == row.key)) }

/-- The page in the words of the specification: the first `offset` rows skipped
when `offset` is positive, then at most `limit` rows kept when `limit` is
positive; a zero limit or offset is ignored. -/
def specPage {α : Type} (limit offset : Nat) (rows : List α) : List α :=
  let rest := if 0 < offset then rows.drop offset else rows
  if 0 < limit then rest.take limit else rest

/-- The SELECT that ListSegments builds from its options: all rows ordered by
created_at, LIMIT when the limit is positive, OFFSET when the offset is positive. -/
def listQuery (opts : List QueryOption) : SegmentQuery :=
  { whereKey := none, orderByCreatedAtAsc := true,
    limit := if (queryParams opts).Limit > 0 then some (queryParams opts).Limit else none,
    offset := if (queryParams opts).Offset > 0 then some (queryParams opts).Offset else none }

instance : IsTotal Constraint (fun a b => a.createdAt ≤ b.createdAt) :=
  ⟨fun a b => Nat.le_total a.createdAt b.createdAt⟩

instance : IsTrans Constraint (fun a b => a.createdAt ≤ b.createdAt) :=
  ⟨fun _ _ _ h1 h2 => Nat.le_trans h1 h2⟩

instance : IsTotal SegmentRow (fun a b => a.createdAt ≤ b.createdAt) :=
  ⟨fun a b => Nat.le_total a.createdAt b.createdAt⟩

instance : IsTrans SegmentRow (fun a b => a.createdAt ≤ b.createdAt) :=
  ⟨fun _ _ _ h1 h2 => Nat.le_trans h1 h2⟩

/-! ## 5. Lemmas -/

/-- The store after UpdateConstraint on the in-memory store, whatever the call returns:
the rows matching id and segment key carry the new columns. -/
theorem UpdateConstraint_mem_state (deps : Deps) (b : Backend) (cascade : Bool)
    (db : MemStore) (now : Timestamp) (r : UpdateConstraintRequest) :
    (UpdateConstraint deps (memDriver b cascade) db now r).1 =
      { db with constraints := db.constraints.map (fun c =>
          if c.id = r.id ∧ c.segmentKey = r.segmentKey then
            { c with type := r.type, property := r.property,
                     operator := deps.ToLower r.operator,
                     value := if deps.ToLower r.operator ∈ deps.NoValueOperators then ""
                              else r.value,
                     updatedAt := now }
          else c) } := by
  simp only [UpdateConstraint, memDriver, memExec]
  split
  · rfl
  · split <;> rfl

/-- Under the primary key, the rows selected by a key that a row has are that row alone. -/
theorem filter_key_eq_singleton (l : List SegmentRow) (row : SegmentRow)
    (hnd : (l.map (fun x => x.key)).Nodup) (hmem : row ∈ l) :
    l.filter (fun x => x.key == row.key) = [row] := by
  induction l with
  | nil => cases hmem
  | cons a t ih =>
    rw [List.map_cons, List.nodup_cons] at hnd
    obtain ⟨hnot, hnd'⟩ := hnd
    rcases List.mem_cons.mp hmem with h | h
    · subst h
      have ht : t.filter (fun x => x.key == row.key) = [] := by
        rw [List.filter_eq_nil_iff]
        intro x hx hk
        exact hnot (List.mem_map.mpr ⟨x, hx, by simpa using hk⟩)
      simp [List.filter_cons, ht]
    · have hne : a.key ≠ row.key := by
        intro he
        exact hnot (List.mem_map.mpr ⟨row, h, he.symm⟩)
      simp [List.filter_cons, hne, ih hnd' h]

/-- No row has the key: the selection by that key is empty. -/
theorem filter_key_eq_nil (l : List SegmentRow) (key : String)
    (h : ∀ row ∈ l, row.key ≠ key) : l.filter (fun x => x.key == key) = [] := by
  rw [List.filter_eq_nil_iff]
  intro x hx hk
  exact h x hx (by simpa using hk)

/-- GetSegment on the in-memory store when no row has the key. -/
theorem GetSegment_mem_absent (b : Backend) (cascade : Bool) (db : MemStore) (key : String)
    (h : ∀ row ∈ db.segments, row.key ≠ key) :
    GetSegment (memDriver b cascade) db key =
      (none, some (GoError.ErrNotFoundf "segment %q" key)) := by
  simp [GetSegment, memDriver, memQuerySegments, outOfRange, page, scanRow,
    filter_key_eq_nil db.segments key h]

/-- GetSegment on the in-memory store when the selection by key starts with `row`. -/
theorem GetSegment_mem_present (b : Backend) (cascade : Bool) (db : MemStore) (key : String)
    (row : SegmentRow) (rest : List SegmentRow)
    (h : db.segments.filter (fun x => x.key == key) = row :: rest) :
    GetSegment (memDriver b cascade) db key =
      (some { key := row.key, name := row.name, description := row.description,
              matchType := row.matchType, createdAt := row.createdAt,
              updatedAt := row.updatedAt,
              constraints := orderConstraints
                (db.constraints.filter (fun c => c.segmentKey == row.key)) }, none) := by
  simp [GetSegment, memDriver, memQuerySegments, outOfRange, memQueryConstraints, page,
    scanRow, h, constraints, scanSegment, ConstraintWhere.holds]
  rfl

/-- The store after UpdateSegment on the in-memory store, whatever the call returns. -/
theorem UpdateSegment_mem_state (b : Backend) (cascade : Bool) (db : MemStore)
    (now : Timestamp) (r : UpdateSegmentRequest) :
    (UpdateSegment (memDriver b cascade) db now r).1 =
      { db with segments := db.segments.map (fun x =>
          if x.key = r.key then
            { x with name := r.name, description := r.description, matchType := r.matchType,
                     updatedAt := now }
          else x) } := by
  simp only [UpdateSegment, memDriver, memExec]
  split <;> rfl

/-- An UPDATE by key leaves a table without that key as it is. -/
theorem map_update_absent (l : List SegmentRow) (key : String) (f : SegmentRow → SegmentRow)
    (h : ∀ row ∈ l, row.key ≠ key) :
    l.map (fun x => if x.key = key then f x else x) = l := by
  induction l with
  | nil => rfl
  | cons a t ih =>
    have ha : a.key ≠ key := h a (List.mem_cons_self _ _)
    have ht : ∀ row ∈ t, row.key ≠ key := fun row hr => h row (List.mem_cons_of_mem _ hr)
    simp [ha, ih ht]

/-- UpdateConstraint on the in-memory store when no row matches both id and segment key. -/
theorem UpdateConstraint_mem_no_match (deps : Deps) (b : Backend) (cascade : Bool)
    (db : MemStore) (now : Timestamp) (r : UpdateConstraintRequest)
    (h : ∀ c ∈ db.constraints, ¬ (c.id = r.id ∧ c.segmentKey = r.segmentKey)) :
    UpdateConstraint deps (memDriver b cascade) db now r =
      (db, none, some (GoError.ErrNotFoundf "constraint %q" r.id)) := by
  have hstate := UpdateConstraint_mem_state deps b cascade db now r
  have hmap : ∀ (f : Constraint → Constraint), db.constraints.map (fun c =>
      if c.id = r.id ∧ c.segmentKey = r.segmentKey then f c else c) = db.constraints := by
    intro f
    conv_rhs => rw [← List.map_id db.constraints]
    apply List.map_congr_left
    intro c hc
    simp [h c hc]
  rw [hmap] at hstate
  have hsel : db.constraints.filter
      (ConstraintWhere.holds (ConstraintWhere.idAndSegmentKey r.id r.segmentKey)) = [] := by
    rw [List.filter_eq_nil_iff]
    intro c hc hk
    apply h c hc
    simpa [ConstraintWhere.holds] using hk
  have hres : (UpdateConstraint deps (memDriver b cascade) db now r).2 =
      (none, some (GoError.ErrNotFoundf "constraint %q" r.id)) := by
    simp [UpdateConstraint, memDriver, memExec, hsel]
  exact Prod.ext hstate hres

/-- DeleteSegment on the in-memory store: the result and the new store. -/
theorem DeleteSegment_mem (b : Backend) (cascade : Bool) (db : MemStore)
    (r : DeleteSegmentRequest) :
    DeleteSegment (memDriver b cascade) db r =
      ({ segments := db.segments.filter (fun x => !(x.key == r.key)),
         constraints :=
           if cascade = true ∧ 0 < (db.segments.filter (fun x => x.key == r.key)).length then
             db.constraints.filter (fun c => !(c.segmentKey == r.key))
           else db.constraints }, none) := by
  simp [DeleteSegment, memDriver, memExec]

/-- DeleteConstraint on the in-memory store: the result and the new store. -/
theorem DeleteConstraint_mem (b : Backend) (cascade : Bool) (db : MemStore)
    (r : DeleteConstraintRequest) :
    DeleteConstraint (memDriver b cascade) db r =
      ({ db with constraints := db.constraints.filter (fun c =>
          !(c.id == r.id && c.segmentKey == r.segmentKey)) }, none) := by
  simp [DeleteConstraint, memDriver, memExec, ConstraintWhere.holds]

/-- DeleteConstraint on the in-memory store when no row matches both id and segment key. -/
theorem DeleteConstraint_mem_no_match (b : Backend) (cascade : Bool) (db : MemStore)
    (r : DeleteConstraintRequest)
    (h : ∀ c ∈ db.constraints, ¬ (c.id = r.id ∧ c.segmentKey = r.segmentKey)) :
    DeleteConstraint (memDriver b cascade) db r = (db, none) := by
  rw [DeleteConstraint_mem]
  have hf : db.constraints.filter (fun c => !(c.id == r.id && c.segmentKey == r.segmentKey))
      = db.constraints := by
    rw [List.filter_eq_self]
    intro c hc
    have hn := h c hc
    by_cases h1 : c.id = r.id
    · have h2 : c.segmentKey ≠ r.segmentKey := fun h2 => hn ⟨h1, h2⟩
      simp [h1, h2]
    · simp [h1]
  rw [hf]

/-- The WHERE clause on the segment key, as a function on rows. -/
theorem holds_segmentKey (k : String) :
    (ConstraintWhere.segmentKey k).holds = fun c => c.segmentKey == k := by
  funext c
  rfl

/-- The row loop of ListSegments on the in-memory store: every row is decoded and
given its constraints, and no error arises. -/
theorem listRows_mem (b : Backend) (cascade : Bool) (db : MemStore) (rows : List SegmentRow)
    (acc : List Segment) :
    listRows (memDriver b cascade) db rows acc = (acc ++ rows.map (memSegment db), none) := by
  induction rows generalizing acc with
  | nil => simp [listRows]
  | cons row rest ih =>
    have hstep := ih (acc ++ [memSegment db row])
    simp only [memDriver] at hstep
    simp only [listRows, constraints, memDriver, memQueryConstraints, scanSegment,
      holds_segmentKey, if_true, List.nil_append]
    simp only [memSegment] at hstep ⊢
    rw [hstep]
    simp [memSegment]

/-- ListSegments runs the query `listQuery opts` and then the row loop. -/
theorem ListSegments_eq {σ : Type} (d : Driver σ) (s : σ) (opts : List QueryOption) :
    ListSegments d s opts =
      match d.querySegments s (listQuery opts) with
      | .error err => ([], some err)
      | .ok rows =>
        match listRows d s rows.scanned [] with
        | (segments, some err) => (segments, some err)
        | (segments, none) => (segments, rows.err) := by
  by_cases h1 : (queryParams opts).Limit > 0 <;> by_cases h2 : (queryParams opts).Offset > 0 <;>
    simp [ListSegments, listQuery, h1, h2]

/-- A statement the in-memory store accepts is evaluated: filter, order, page. -/
theorem memQuerySegments_accepted (b : Backend) (db : MemStore) (q : SegmentQuery)
    (h1 : ¬ (b = Backend.sqlite3 ∧ q.offset.isSome = true ∧ q.limit.isNone = true))
    (h2 : outOfRange q.limit = false) (h3 : outOfRange q.offset = false) :
    memQuerySegments b db q =
      .ok { scanned := page q.limit q.offset
              (if q.orderByCreatedAtAsc then
                orderSegments (match q.whereKey with
                  | some key => db.segments.filter (fun x => x.key == key)
                  | none => db.segments)
               else
                match q.whereKey with
                | some key => db.segments.filter (fun x => x.key == key)
                | none => db.segments),
            err := none } := by
  unfold memQuerySegments
  rw [if_neg h1, if_neg (by simp [h2, h3])]

/-- ListSegments on the in-memory store, for operands within the signed 64-bit
range and, on the embedded engine, no offset without a limit: the page of the
ordered table, each row decoded and given its constraints. -/
theorem ListSegments_mem (b : Backend) (cascade : Bool) (db : MemStore)
    (opts : List QueryOption)
    (hl : (queryParams opts).Limit < 2 ^ 63) (ho : (queryParams opts).Offset < 2 ^ 63)
    (hs : b = Backend.sqlite3 → 0 < (queryParams opts).Offset → 0 < (queryParams opts).Limit) :
    ListSegments (memDriver b cascade) db opts =
      ((page (if (queryParams opts).Limit > 0 then some (queryParams opts).Limit else none)
             (if (queryParams opts).Offset > 0 then some (queryParams opts).Offset else none)
             (orderSegments db.segments)).map (memSegment db), none) := by
  have hrows := listRows_mem b cascade db
  have h1 : ¬ (b = Backend.sqlite3 ∧ (listQuery opts).offset.isSome = true ∧
      (listQuery opts).limit.isNone = true) := by
    rintro ⟨hb, hoff, hlim⟩
    by_cases hpos : 0 < (queryParams opts).Offset
    · have := hs hb hpos
      simp [listQuery, this] at hlim
    · simp [listQuery, hpos] at hoff
  have h2 : outOfRange (listQuery opts).limit = false := by
    by_cases hpos : (queryParams opts).Limit > 0
    · simp only [listQuery, hpos, if_true, outOfRange, decide_eq_false_iff_not, not_le]
      exact hl
    · simp [listQuery, hpos, outOfRange]
  have h3 : outOfRange (listQuery opts).offset = false := by
    by_cases hpos : (queryParams opts).Offset > 0
    · simp only [listQuery, hpos, if_true, outOfRange, decide_eq_false_iff_not, not_le]
      exact ho
    · simp [listQuery, hpos, outOfRange]
  rw [ListSegments_eq]
  simp only [memDriver] at hrows ⊢
  rw [memQuerySegments_accepted b db (listQuery opts) h1 h2 h3]
  simp [hrows, listQuery]

/-- ListSegments on the embedded engine with a positive offset and no positive
limit: the statement carries OFFSET without LIMIT, the engine rejects it, and
the call returns that error and no segment. -/
theorem ListSegments_mem_offset_without_limit (cascade : Bool) (db : MemStore)
    (opts : List QueryOption)
    (hl : (queryParams opts).Limit = 0) (ho : 0 < (queryParams opts).Offset) :
    ListSegments (memDriver Backend.sqlite3 cascade) db opts =
      ([], some (GoError.sqlite3Error 1 1)) := by
  rw [ListSegments_eq]
  simp [memDriver, memQuerySegments, listQuery, hl, ho]

/-- Decoding a row and reading the row columns back gives the row. -/
theorem memSegment_row (db : MemStore) (row : SegmentRow) : (memSegment db row).row = row := rfl

/-- A CreateSegment that returns a segment and no error executed the insert of
that segment's row with success, and built the segment from the request and the clock. -/
theorem CreateSegment_success {σ : Type} (d : Driver σ) (s : σ) (now : Timestamp)
    (r : CreateSegmentRequest) (s' : σ) (seg : Segment)
    (h : CreateSegment d s now r = (s', some seg, none)) :
    seg = { key := r.key, name := r.name, description := r.description,
            matchType := r.matchType, createdAt := now, updatedAt := now, constraints := [] } ∧
    ∃ res, d.exec s (Stmt.insertSegment seg.row) = (s', .ok res) := by
  simp only [CreateSegment] at h
  split at h
  · split at h
    · split at h <;> simp at h
    · split at h <;> simp at h
    · simp at h
  · rename_i s1 res heq
    simp only [Prod.mk.injEq, Option.some.injEq, and_true] at h
    obtain ⟨h1, h2⟩ := h
    subst h1 h2
    exact ⟨rfl, res, heq⟩

/-- A CreateConstraint that returns a constraint and no error executed the insert
of that constraint with success, and built it from the request, the clock and the id. -/
theorem CreateConstraint_success {σ : Type} (deps : Deps) (d : Driver σ) (s : σ)
    (now : Timestamp) (id : String) (r : CreateConstraintRequest) (s' : σ) (c : Constraint)
    (h : CreateConstraint deps d s now id r = (s', some c, none)) :
    c = { id := id, segmentKey := r.segmentKey, type := r.type, property := r.property,
          operator := deps.ToLower r.operator,
          value := if deps.ToLower r.operator ∈ deps.NoValueOperators then "" else r.value,
          createdAt := now, updatedAt := now } ∧
    ∃ res, d.exec s (Stmt.insertConstraint c) = (s', .ok res) := by
  simp only [CreateConstraint] at h
  split at h
  · split at h
    · split at h <;> simp at h
    · split at h <;> simp at h
    · simp at h
  · rename_i s1 res heq
    simp only [Prod.mk.injEq, Option.some.injEq, and_true] at h
    obtain ⟨h1, h2⟩ := h
    subst h1 h2
    refine ⟨?_, res, heq⟩
    by_cases hop : deps.ToLower r.operator ∈ deps.NoValueOperators <;> simp [hop]

/-- CreateSegment returns either an error and no segment, or a segment and no error. -/
theorem CreateSegment_shape {σ : Type} (d : Driver σ) (s : σ) (now : Timestamp)
    (r : CreateSegmentRequest) :
    (∃ err, (CreateSegment d s now r).2 = (none, some err)) ∨
    (∃ seg, (CreateSegment d s now r).2 = (some seg, none)) := by
  simp only [CreateSegment]
  split
  · left
    split
    · split <;> exact ⟨_, rfl⟩
    · split <;> exact ⟨_, rfl⟩
    · exact ⟨_, rfl⟩
  · right
    exact ⟨_, rfl⟩

/-- CreateConstraint returns either an error and no constraint, or a constraint and no error. -/
theorem CreateConstraint_shape {σ : Type} (deps : Deps) (d : Driver σ) (s : σ)
    (now : Timestamp) (id : String) (r : CreateConstraintRequest) :
    (∃ err, (CreateConstraint deps d s now id r).2 = (none, some err)) ∨
    (∃ c, (CreateConstraint deps d s now id r).2 = (some c, none)) := by
  simp only [CreateConstraint]
  split
  · left
    split
    · split <;> exact ⟨_, rfl⟩
    · split <;> exact ⟨_, rfl⟩
    · exact ⟨_, rfl⟩
  · right
    exact ⟨_, rfl⟩

/-- On the in-memory store a CreateSegment that succeeds appends the row of the
returned segment and touches nothing else. -/
theorem CreateSegment_mem_success (b : Backend) (cascade : Bool) (db db' : MemStore)
    (now : Timestamp) (r : CreateSegmentRequest) (seg : Segment)
    (h : CreateSegment (memDriver b cascade) db now r = (db', some seg, none)) :
    db'.segments = db.segments ++ [seg.row] ∧ db'.constraints = db.constraints := by
  obtain ⟨_, res, hexec⟩ := CreateSegment_success _ db now r db' seg h
  simp only [memDriver, memExec] at hexec
  split at hexec
  · simp at hexec
  · simp only [Prod.mk.injEq] at hexec
    rw [← hexec.1]
    exact ⟨rfl, rfl⟩

/-- On the in-memory store a CreateConstraint that succeeds appends the returned
constraint and touches nothing else. -/
theorem CreateConstraint_mem_success (deps : Deps) (b : Backend) (cascade : Bool)
    (db db' : MemStore) (now : Timestamp) (id : String) (r : CreateConstraintRequest)
    (c : Constraint)
    (h : CreateConstraint deps (memDriver b cascade) db now id r = (db', some c, none)) :
    db'.constraints = db.constraints ++ [c] ∧ db'.segments = db.segments := by
  obtain ⟨_, res, hexec⟩ := CreateConstraint_success deps _ db now id r db' c h
  simp only [memDriver, memExec] at hexec
  split at hexec
  · simp at hexec
  · split at hexec
    · simp only [Prod.mk.injEq] at hexec
      rw [← hexec.1]
      exact ⟨rfl, rfl⟩
    · simp at hexec

/-- On the in-memory store a CreateSegment that fails writes nothing. -/
theorem CreateSegment_mem_failure (b : Backend) (cascade : Bool) (db : MemStore)
    (now : Timestamp) (r : CreateSegmentRequest)
    (h : (CreateSegment (memDriver b cascade) db now r).2.2 ≠ none) :
    (CreateSegment (memDriver b cascade) db now r).1 = db := by
  simp only [CreateSegment, memDriver, memExec] at h ⊢
  by_cases hkey : (db.segments.any fun x => x.key == r.key) = true
  · cases b <;> simp [hkey, uniqueViolation, sqlite3ErrConstraint, pgConstraintUnique]
  · simp [hkey] at h

/-- On the in-memory store a CreateConstraint that fails writes nothing. -/
theorem CreateConstraint_mem_failure (deps : Deps) (b : Backend) (cascade : Bool)
    (db : MemStore) (now : Timestamp) (id : String) (r : CreateConstraintRequest)
    (h : (CreateConstraint deps (memDriver b cascade) db now id r).2.2 ≠ none) :
    (CreateConstraint deps (memDriver b cascade) db now id r).1 = db := by
  simp only [CreateConstraint, memDriver, memExec] at h ⊢
  by_cases hid : (db.constraints.any fun c => c.id == id) = true
  · cases b <;> by_cases hop : deps.ToLower r.operator ∈ deps.NoValueOperators <;>
      simp [hid, hop, uniqueViolation, sqlite3ErrConstraint, pgConstraintForeignKey]
  · by_cases hseg : (db.segments.any fun x => x.key == r.segmentKey) = true
    · by_cases hop : deps.ToLower r.operator ∈ deps.NoValueOperators <;>
        simp [hid, hseg, hop] at h
    · cases b <;> by_cases hop : deps.ToLower r.operator ∈ deps.NoValueOperators <;>
        simp [hid, hseg, hop, foreignKeyViolation, sqlite3ErrConstraint,
          pgConstraintForeignKey]

/-- Every row that UpdateConstraint matched on the in-memory store carries the
lowercased operator and the normalised value of the request. -/
theorem UpdateConstraint_mem_matched (deps : Deps) (b : Backend) (cascade : Bool)
    (db : MemStore) (now : Timestamp) (r : UpdateConstraintRequest) (c : Constraint)
    (hc : c ∈ (UpdateConstraint deps (memDriver b cascade) db now r).1.constraints)
    (hid : c.id = r.id) (hseg : c.segmentKey = r.segmentKey) :
    c.operator = deps.ToLower r.operator ∧
    c.value = (if deps.ToLower r.operator ∈ deps.NoValueOperators then "" else r.value) := by
  rw [UpdateConstraint_mem_state] at hc
  simp only [List.mem_map] at hc
  obtain ⟨c0, -, hc0⟩ := hc
  by_cases hm : c0.id = r.id ∧ c0.segmentKey = r.segmentKey
  · rw [if_pos hm] at hc0
    subst hc0
    exact ⟨rfl, rfl⟩
  · rw [if_neg hm] at hc0
    subst hc0
    exact absurd ⟨hid, hseg⟩ hm

/-- When the write reports one affected row and the re-read finds no row, for any
driver: UpdateSegment fails with NotFound "segment <key>", while UpdateConstraint
returns the error `sql.ErrNoRows` of the re-read as it is. -/
theorem update_reread_no_rows {σ : Type} (deps : Deps) (d : Driver σ) (s s' : σ)
    (now : Timestamp) (rs : UpdateSegmentRequest) (rc : UpdateConstraintRequest) :
    (d.exec s (Stmt.updateSegment rs.name rs.description rs.matchType now rs.key) =
        (s', .ok { rowsAffected := .ok 1 }) →
      d.querySegments s' { whereKey := some rs.key, orderByCreatedAtAsc := false,
                           limit := none, offset := none } =
        .ok { scanned := [], err := none } →
      UpdateSegment d s now rs = (s', none, some (GoError.ErrNotFoundf "segment %q" rs.key))) ∧
    (d.exec s (Stmt.updateConstraint rc.type rc.property (deps.ToLower rc.operator)
          (if deps.ToLower rc.operator ∈ deps.NoValueOperators then "" else rc.value)
          now rc.id rc.segmentKey) = (s', .ok { rowsAffected := .ok 1 }) →
      d.queryConstraints s' { cond := ConstraintWhere.idAndSegmentKey rc.id rc.segmentKey,
                              orderByCreatedAtAsc := false } =
        .ok { scanned := [], err := none } →
      UpdateConstraint deps d s now rc = (s', none, some GoError.sqlErrNoRows)) := by
  constructor
  · intro h1 h2
    simp [UpdateSegment, h1, GetSegment, h2, scanRow]
  · intro h1 h2
    simp [UpdateConstraint, h1, h2, scanRow]

/-- The primary keys are an invariant of the in-memory store: every statement
leaves `segments.key` and `constraints.id` free of duplicates. -/
theorem memExec_preserves_wf (b : Backend) (cascade : Bool) (db : MemStore) (stmt : Stmt)
    (h : db.wf) : (memExec b cascade db stmt).1.wf := by
  obtain ⟨hs, hc⟩ := h
  cases stmt with
  | insertSegment row =>
    simp only [memExec]
    split
    · exact ⟨hs, hc⟩
    · rename_i hany
      refine ⟨?_, hc⟩
      simp only [List.map_append, List.map_cons, List.map_nil]
      rw [List.nodup_append]
      refine ⟨hs, List.nodup_singleton _, ?_⟩
      intro k hk hk'
      rw [List.mem_singleton] at hk'
      subst hk'
      obtain ⟨x, hx, hxk⟩ := List.mem_map.mp hk
      apply hany
      simp only [List.any_eq_true, beq_iff_eq]
      exact ⟨x, hx, hxk⟩
  | updateSegment name description matchType updatedAt whereKey =>
    simp only [memExec]
    refine ⟨?_, hc⟩
    simp only [List.map_map]
    have hkeys : db.segments.map ((fun x : SegmentRow => x.key) ∘ fun x =>
        if x.key = whereKey then
          { x with name := name, description := description, matchType := matchType,
                   updatedAt := updatedAt }
        else x) = db.segments.map (fun x => x.key) := by
      apply List.map_congr_left
      intro x _
      by_cases hx : x.key = whereKey <;> simp [hx]
    rw [hkeys]
    exact hs
  | deleteSegment whereKey =>
    simp only [memExec]
    refine ⟨(hs.sublist ((List.filter_sublist _).map _)), ?_⟩
    split
    · exact hc.sublist ((List.filter_sublist _).map _)
    · exact hc
  | insertConstraint row =>
    simp only [memExec]
    split
    · exact ⟨hs, hc⟩
    · rename_i hany
      split
      · refine ⟨hs, ?_⟩
        simp only [List.map_append, List.map_cons, List.map_nil]
        rw [List.nodup_append]
        refine ⟨hc, List.nodup_singleton _, ?_⟩
        intro k hk hk'
        rw [List.mem_singleton] at hk'
        subst hk'
        obtain ⟨x, hx, hxk⟩ := List.mem_map.mp hk
        apply hany
        simp only [List.any_eq_true, beq_iff_eq]
        exact ⟨x, hx, hxk⟩
      · exact ⟨hs, hc⟩
  | updateConstraint type property operator value updatedAt whereId whereSegmentKey =>
    simp only [memExec]
    refine ⟨hs, ?_⟩
    simp only [List.map_map]
    have hids : db.constraints.map ((fun c : Constraint => c.id) ∘ fun c =>
        if c.id = whereId ∧ c.segmentKey = whereSegmentKey then
          { c with type := type, property := property, operator := operator,
                   value := value, updatedAt := updatedAt }
        else c) = db.constraints.map (fun c => c.id) := by
      apply List.map_congr_left
      intro c _
      by_cases hx : c.id = whereId ∧ c.segmentKey = whereSegmentKey <;> simp [hx]
    rw [hids]
    exact hc
  | deleteConstraint whereId whereSegmentKey =>
    simp only [memExec]
    exact ⟨hs, hc.sublist ((List.filter_sublist _).map _)⟩

/-- For any driver, when the insert of the constraint built from the request
executes, CreateConstraint returns that constraint and no error. -/
theorem CreateConstraint_executed {σ : Type} (deps : Deps) (d : Driver σ) (s s' : σ)
    (now : Timestamp) (id : String) (r : CreateConstraintRequest) (res : ExecResult)
    (h : d.exec s (Stmt.insertConstraint
          { id := id, segmentKey := r.segmentKey, type := r.type, property := r.property,
            operator := deps.ToLower r.operator,
            value := if deps.ToLower r.operator ∈ deps.NoValueOperators then "" else r.value,
            createdAt := now, updatedAt := now }) = (s', .ok res)) :
    CreateConstraint deps d s now id r =
      (s', some { id := id, segmentKey := r.segmentKey, type := r.type,
                  property := r.property, operator := deps.ToLower r.operator,
                  value := if deps.ToLower r.operator ∈ deps.NoValueOperators then ""
                           else r.value,
                  createdAt := now, updatedAt := now }, none) := by
  by_cases hop : deps.ToLower r.operator ∈ deps.NoValueOperators
  · simp only [hop, if_true] at h ⊢
    simp [CreateConstraint, hop, h]
  · simp only [hop, if_false] at h ⊢
    simp [CreateConstraint, hop, h]

/-- On the in-memory store, a CreateConstraint with a fresh id for a segment
that exists succeeds and appends the constraint built from the request. -/
theorem CreateConstraint_mem_fresh (deps : Deps) (b : Backend) (cascade : Bool)
    (db : MemStore) (now : Timestamp) (id : String) (r : CreateConstraintRequest)
    (hid : ∀ c ∈ db.constraints, c.id ≠ id)
    (hseg : ∃ row ∈ db.segments, row.key = r.segmentKey) :
    CreateConstraint deps (memDriver b cascade) db now id r =
      ({ db with constraints := db.constraints ++
            [{ id := id, segmentKey := r.segmentKey, type := r.type, property := r.property,
               operator := deps.ToLower r.operator,
               value := if deps.ToLower r.operator ∈ deps.NoValueOperators then ""
                        else r.value,
               createdAt := now, updatedAt := now }] },
        some { id := id, segmentKey := r.segmentKey, type := r.type,
               property := r.property, operator := deps.ToLower r.operator,
               value := if deps.ToLower r.operator ∈ deps.NoValueOperators then ""
                        else r.value,
               createdAt := now, updatedAt := now }, none) := by
  apply CreateConstraint_executed deps (memDriver b cascade) db _ now id r
    { rowsAffected := .ok 1 }
  have h1 : (db.constraints.any fun c => c.id == id) = false := by
    simp only [List.any_eq_false, beq_iff_eq]
    exact hid
  have h2 : (db.segments.any fun x => x.key == r.segmentKey) = true := by
    simp only [List.any_eq_true, beq_iff_eq]
    exact hseg
  simp [memDriver, memExec, h1, h2]

/-- Under the primary key, the constraint rows selected by an id and a segment key
that a row has are that row alone. -/
theorem filter_id_segment_eq_singleton (l : List Constraint) (c : Constraint)
    (hnd : (l.map (fun x => x.id)).Nodup) (hmem : c ∈ l) :
    l.filter (ConstraintWhere.holds (ConstraintWhere.idAndSegmentKey c.id c.segmentKey))
      = [c] := by
  induction l with
  | nil => cases hmem
  | cons a t ih =>
    rw [List.map_cons, List.nodup_cons] at hnd
    obtain ⟨hnot, hnd'⟩ := hnd
    rcases List.mem_cons.mp hmem with h | h
    · subst h
      have ht : t.filter
          (ConstraintWhere.holds (ConstraintWhere.idAndSegmentKey c.id c.segmentKey)) = [] := by
        rw [List.filter_eq_nil_iff]
        intro x hx hk
        simp only [ConstraintWhere.holds, Bool.and_eq_true, beq_iff_eq] at hk
        exact hnot (List.mem_map.mpr ⟨x, hx, hk.1⟩)
      simp [List.filter_cons, ht, ConstraintWhere.holds]
    · have hne : a.id ≠ c.id := by
        intro he
        exact hnot (List.mem_map.mpr ⟨c, h, he.symm⟩)
      simp [List.filter_cons, hne, ConstraintWhere.holds]
      simpa [ConstraintWhere.holds] using ih hnd' h

/-- On the in-memory store with unique ids, an UpdateConstraint whose id and
segment key are those of a row succeeds and returns that row with the type and
property of the request, the lowercased operator, the normalised value and the
clock value as updatedAt. -/
theorem UpdateConstraint_mem_success (deps : Deps) (b : Backend) (cascade : Bool)
    (db : MemStore) (now : Timestamp) (r : UpdateConstraintRequest) (c : Constraint)
    (hnd : (db.constraints.map (fun x => x.id)).Nodup) (hmem : c ∈ db.constraints)
    (hid : c.id = r.id) (hseg : c.segmentKey = r.segmentKey) :
    (UpdateConstraint deps (memDriver b cascade) db now r).2 =
      (some { id := c.id, segmentKey := c.segmentKey, type := r.type, property := r.property,
              operator := deps.ToLower r.operator,
              value := if deps.ToLower r.operator ∈ deps.NoValueOperators then ""
                       else r.value,
              createdAt := c.createdAt, updatedAt := now }, none) := by
  have hsel := filter_id_segment_eq_singleton db.constraints c hnd hmem
  rw [hid, hseg] at hsel
  have hsel' : (db.constraints.map (fun x =>
        if x.id = r.id ∧ x.segmentKey = r.segmentKey then
          ({ x with type := r.type, property := r.property,
                    operator := deps.ToLower r.operator,
                    value := if deps.ToLower r.operator ∈ deps.NoValueOperators then ""
                             else r.value,
                    updatedAt := now } : Constraint)
        else x)).filter
      (ConstraintWhere.holds (ConstraintWhere.idAndSegmentKey r.id r.segmentKey)) =
      [{ c with type := r.type, property := r.property,
                operator := deps.ToLower r.operator,
                value := if deps.ToLower r.operator ∈ deps.NoValueOperators then ""
                         else r.value,
                updatedAt := now }] := by
    rw [List.filter_map]
    have hcomp : (ConstraintWhere.holds (ConstraintWhere.idAndSegmentKey r.id r.segmentKey) ∘
        fun x : Constraint =>
          if x.id = r.id ∧ x.segmentKey = r.segmentKey then
            ({ x with type := r.type, property := r.property,
                      operator := deps.ToLower r.operator,
                      value := if deps.ToLower r.operator ∈ deps.NoValueOperators then ""
                               else r.value,
                      updatedAt := now } : Constraint)
          else x) =
        ConstraintWhere.holds (ConstraintWhere.idAndSegmentKey r.id r.segmentKey) := by
      funext x
      by_cases hx : x.id = r.id ∧ x.segmentKey = r.segmentKey <;>
        simp [hx, ConstraintWhere.holds]
    rw [hcomp, hsel]
    simp [hid, hseg]
  simp only [UpdateConstraint, memDriver, memExec, hsel, memQueryConstraints]
  simp [scanRow, hsel']

/-! ## 6. The claims -/

/-- C1. For every request. For any driver, when the insert that
CreateConstraint builds executes, the call returns the constraint whose operator
is the lowercased request operator and whose value is empty when that operator
is a no-value operator and the caller's value otherwise. On the in-memory
store: a CreateConstraint with a fresh id for an existing segment succeeds and
appends exactly that row; whenever a CreateConstraint succeeds the appended row
has that operator and value, and one that fails writes nothing. Every row an
UpdateConstraint matches ends with operator and value computed in the same way
from its request, the call adds or removes no row, and with unique ids an
UpdateConstraint on the id and segment key of a row succeeds and returns the
row so updated. For a create and an update request with the same operator and
value, the created row and the updated rows carry the same (operator, value)
pair, and both calls succeed with that pair under the conditions above. -/
theorem C1_operator_and_value_normalised (deps : Deps) (b : Backend) (cascade : Bool)
    (db : MemStore) (now : Timestamp) (id : String)
    (rc : CreateConstraintRequest) (ru : UpdateConstraintRequest) :
    (∀ db' c, CreateConstraint deps (memDriver b cascade) db now id rc = (db', some c, none) →
        db'.constraints = db.constraints ++ [c] ∧
        c.operator = deps.ToLower rc.operator ∧
        (deps.ToLower rc.operator ∈ deps.NoValueOperators → c.value = "") ∧
        (deps.ToLower rc.operator ∉ deps.NoValueOperators → c.value = rc.value)) ∧
    ((CreateConstraint deps (memDriver b cascade) db now id rc).2.2 ≠ none →
        (CreateConstraint deps (memDriver b cascade) db now id rc).1 = db) ∧
    (∀ c ∈ (UpdateConstraint deps (memDriver b cascade) db now ru).1.constraints,
        c.id = ru.id → c.segmentKey = ru.segmentKey →
        c.operator = deps.ToLower ru.operator ∧
        (deps.ToLower ru.operator ∈ deps.NoValueOperators → c.value = "") ∧
        (deps.ToLower ru.operator ∉ deps.NoValueOperators → c.value = ru.value)) ∧
    ((UpdateConstraint deps (memDriver b cascade) db now ru).1.constraints.length
        = db.constraints.length) ∧
    (rc.operator = ru.operator → rc.value = ru.value →
      ∀ db' c, CreateConstraint deps (memDriver b cascade) db now id rc = (db', some c, none) →
      ∀ c' ∈ (UpdateConstraint deps (memDriver b cascade) db now ru).1.constraints,
        c'.id = ru.id → c'.segmentKey = ru.segmentKey →
        c'.operator = c.operator ∧ c'.value = c.value) ∧
    (∀ (σ : Type) (d : Driver σ) (s s' : σ) (res : ExecResult),
        d.exec s (Stmt.insertConstraint
          { id := id, segmentKey := rc.segmentKey, type := rc.type, property := rc.property,
            operator := deps.ToLower rc.operator,
            value := if deps.ToLower rc.operator ∈ deps.NoValueOperators then ""
                     else rc.value,
            createdAt := now, updatedAt := now }) = (s', .ok res) →
        CreateConstraint deps d s now id rc =
          (s', some { id := id, segmentKey := rc.segmentKey, type := rc.type,
                      property := rc.property, operator := deps.ToLower rc.operator,
                      value := if deps.ToLower rc.operator ∈ deps.NoValueOperators then ""
                               else rc.value,
                      createdAt := now, updatedAt := now }, none)) ∧
    ((∀ c ∈ db.constraints, c.id ≠ id) → (∃ row ∈ db.segments, row.key = rc.segmentKey) →
        CreateConstraint deps (memDriver b cascade) db now id rc =
          ({ db with constraints := db.constraints ++
                [{ id := id, segmentKey := rc.segmentKey, type := rc.type,
                   property := rc.property, operator := deps.ToLower rc.operator,
                   value := if deps.ToLower rc.operator ∈ deps.NoValueOperators then ""
                            else rc.value,
                   createdAt := now, updatedAt := now }] },
            some { id := id, segmentKey := rc.segmentKey, type := rc.type,
                   property := rc.property, operator := deps.ToLower rc.operator,
                   value := if deps.ToLower rc.operator ∈ deps.NoValueOperators then ""
                            else rc.value,
                   createdAt := now, updatedAt := now }, none)) ∧
    (∀ c0 ∈ db.constraints, c0.id = ru.id → c0.segmentKey = ru.segmentKey →
        (db.constraints.map (fun x => x.id)).Nodup →
        (UpdateConstraint deps (memDriver b cascade) db now ru).2 =
          (some { id := c0.id, segmentKey := c0.segmentKey, type := ru.type,
                  property := ru.property, operator := deps.ToLower ru.operator,
                  value := if deps.ToLower ru.operator ∈ deps.NoValueOperators then ""
                           else ru.value,
                  createdAt := c0.createdAt, updatedAt := now }, none)) ∧
    (rc.operator = ru.operator → rc.value = ru.value →
      (∀ c ∈ db.constraints, c.id ≠ id) → (∃ row ∈ db.segments, row.key = rc.segmentKey) →
      (∃ c0 ∈ db.constraints, c0.id = ru.id ∧ c0.segmentKey = ru.segmentKey) →
      (db.constraints.map (fun x => x.id)).Nodup →
      ∃ c c', (CreateConstraint deps (memDriver b cascade) db now id rc).2 = (some c, none) ∧
        (UpdateConstraint deps (memDriver b cascade) db now ru).2 = (some c', none) ∧
        c.operator = deps.ToLower rc.operator ∧ c'.operator = c.operator ∧
        c'.value = c.value ∧
        (deps.ToLower rc.operator ∈ deps.NoValueOperators → c.value = "") ∧
        (deps.ToLower rc.operator ∉ deps.NoValueOperators → c.value = rc.value)) := by
  refine ⟨?_, CreateConstraint_mem_failure deps b cascade db now id rc, ?_, ?_, ?_,
    fun σ d s s' res h => CreateConstraint_executed deps d s s' now id rc res h,
    CreateConstraint_mem_fresh deps b cascade db now id rc,
    fun c0 hc0 hid hseg hnd =>
      UpdateConstraint_mem_success deps b cascade db now ru c0 hnd hc0 hid hseg, ?_⟩
  · intro db' c h
    obtain ⟨hc, -⟩ := CreateConstraint_success deps _ db now id rc db' c h
    refine ⟨(CreateConstraint_mem_success deps b cascade db db' now id rc c h).1, ?_, ?_, ?_⟩
    · rw [hc]
    · intro hop
      rw [hc]
      simp [hop]
    · intro hop
      rw [hc]
      simp [hop]
  · intro c hc hid hseg
    obtain ⟨h1, h2⟩ := UpdateConstraint_mem_matched deps b cascade db now ru c hc hid hseg
    refine ⟨h1, ?_, ?_⟩
    · intro hop
      rw [h2, if_pos hop]
    · intro hop
      rw [h2, if_neg hop]
  · rw [UpdateConstraint_mem_state]
    simp
  · intro hop hval db' c h c' hc' hid hseg
    obtain ⟨hc, -⟩ := CreateConstraint_success deps _ db now id rc db' c h
    obtain ⟨h1, h2⟩ := UpdateConstraint_mem_matched deps b cascade db now ru c' hc' hid hseg
    rw [h1, h2, hc, hop, hval]
    exact ⟨rfl, rfl⟩
  · intro hop hval hfresh hseg ⟨c0, hc0, hid0, hseg0⟩ hnd
    refine ⟨_, _, by rw [CreateConstraint_mem_fresh deps b cascade db now id rc hfresh hseg],
      UpdateConstraint_mem_success deps b cascade db now ru c0 hnd hc0 hid0 hseg0,
      rfl, ?_, ?_, ?_, ?_⟩
    · simp [hop]
    · simp [hop, hval]
    · intro h
      simp [h]
    · intro h
      simp [h]

/-- Witness of C1: on the sample store, creating with operator "PRESENT" stores
operator "present" with an empty value; creating with operator "EQ" and value
"pro" succeeds and stores operator "eq" with value "pro"; updating constraint
"c1" with "EQ" and "team" succeeds and returns operator "eq" with value "team";
and an update with the operator and value of the first create leaves the row
with the same pair. -/
theorem C1_operator_and_value_normalised_witness :
    CreateConstraint sampleDeps (memDriver Backend.sqlite3 true) sampleStore 5 "c2"
        samplePresentRequest =
      (samplePresentStore, some samplePresent, none) ∧
    sampleDeps.ToLower samplePresentRequest.operator ∈ sampleDeps.NoValueOperators ∧
    samplePresent.value = "" ∧
    (∀ c ∈ (UpdateConstraint sampleDeps (memDriver Backend.sqlite3 true) sampleStore 5
          sampleUpdateConstraint).1.constraints,
        c.id = sampleUpdateConstraint.id → c.segmentKey = sampleUpdateConstraint.segmentKey →
        c.operator = samplePresent.operator ∧ c.value = samplePresent.value) ∧
    (∀ c ∈ sampleStore.constraints, c.id ≠ "c2") ∧
    (∃ row ∈ sampleStore.segments, row.key = sampleValueRequest.segmentKey) ∧
    CreateConstraint sampleDeps (memDriver Backend.sqlite3 true) sampleStore 5 "c2"
        sampleValueRequest =
      ({ sampleStore with constraints := sampleStore.constraints ++ [sampleValue] },
        some sampleValue, none) ∧
    sampleValue.operator = "eq" ∧ sampleValue.value = "pro" ∧
    (UpdateConstraint sampleDeps (memDriver Backend.sqlite3 true) sampleStore 5
        sampleValueUpdate).2 =
      (some { id := "c1", segmentKey := "s1", type := 1, property := "plan",
              operator := "eq", value := "team", createdAt := 2, updatedAt := 5 }, none) :=
  ⟨by decide, by decide,
    ((C1_operator_and_value_normalised sampleDeps Backend.sqlite3 true sampleStore 5 "c2"
        samplePresentRequest sampleUpdateConstraint).1 samplePresentStore samplePresent
        (by decide)).2.2.1
      (by decide),
    (C1_operator_and_value_normalised sampleDeps Backend.sqlite3 true sampleStore 5 "c2"
        samplePresentRequest sampleUpdateConstraint).2.2.2.2.1 rfl rfl samplePresentStore
      samplePresent (by decide),
    by decide, by decide,
    (C1_operator_and_value_normalised sampleDeps Backend.sqlite3 true sampleStore 5 "c2"
        sampleValueRequest sampleValueUpdate).2.2.2.2.2.2.1 (by decide) (by decide),
    rfl, rfl,
    (C1_operator_and_value_normalised sampleDeps Backend.sqlite3 true sampleStore 5 "c2"
        sampleValueRequest sampleValueUpdate).2.2.2.2.2.2.2.1 sampleConstraint (by decide) rfl
      rfl (by decide)⟩

/-- C2. CreateSegment, for any driver: when the insert fails with the sqlite3
constraint code or with a postgres error named as the unique violation, the
call fails with Invalid "segment <key> is not unique"; any other execution
error is returned unchanged; the returned segment is nil whenever an error is
returned. On the in-memory store, on both backends, creating a segment whose
key exists fails with that Invalid error and writes nothing. -/
theorem C2_create_segment_not_unique {σ : Type} (d : Driver σ) (s : σ) (now : Timestamp)
    (r : CreateSegmentRequest) :
    (∀ s' err, d.exec s (Stmt.insertSegment
          { key := r.key, name := r.name, description := r.description,
            matchType := r.matchType, createdAt := now, updatedAt := now }) = (s', .error err) →
        ((∀ ext, err = GoError.sqlite3Error sqlite3ErrConstraint ext →
            CreateSegment d s now r =
              (s', none, some (GoError.ErrInvalidf "segment %q is not unique" r.key))) ∧
         (err = GoError.pqError pgConstraintUnique →
            CreateSegment d s now r =
              (s', none, some (GoError.ErrInvalidf "segment %q is not unique" r.key))) ∧
         ((∀ ext, err ≠ GoError.sqlite3Error sqlite3ErrConstraint ext) →
            err ≠ GoError.pqError pgConstraintUnique →
            CreateSegment d s now r = (s', none, some err)))) ∧
    ((CreateSegment d s now r).2.2 ≠ none → (CreateSegment d s now r).2.1 = none) ∧
    (∀ (b : Backend) (cascade : Bool) (db : MemStore),
        (∃ row ∈ db.segments, row.key = r.key) →
        CreateSegment (memDriver b cascade) db now r =
          (db, none, some (GoError.ErrInvalidf "segment %q is not unique" r.key))) := by
  refine ⟨?_, ?_, ?_⟩
  · intro s' err h
    refine ⟨?_, ?_, ?_⟩
    · intro ext he
      subst he
      simp [CreateSegment, h]
    · intro he
      subst he
      simp [CreateSegment, h]
    · intro h1 h2
      simp only [CreateSegment, h]
      cases err with
      | sqlite3Error code ext =>
        have hc : code ≠ sqlite3ErrConstraint := fun hc => h1 ext (by rw [hc])
        simp [hc]
      | pqError name =>
        have hc : name ≠ pgConstraintUnique := fun hc => h2 (by rw [hc])
        simp [hc]
      | _ => rfl
  · intro h
    simp only [CreateSegment] at h ⊢
    split
    · split
      · split <;> rfl
      · split <;> rfl
      · rfl
    · rename_i heq
      rw [heq] at h
      exact absurd rfl h
  · intro b cascade db ⟨row, hrow, hkey⟩
    have hany : (db.segments.any fun x => x.key == r.key) = true := by
      simp only [List.any_eq_true, beq_iff_eq]
      exact ⟨row, hrow, hkey⟩
    cases b <;>
      simp [CreateSegment, memDriver, memExec, hany, uniqueViolation, sqlite3ErrConstraint,
        pgConstraintUnique]

/-- Witness of C2: on both backends the sample store rejects a second segment "s1"
with the error the theorem names, and CreateSegment turns it into Invalid. -/
theorem C2_create_segment_not_unique_witness :
    (memDriver Backend.sqlite3 true).exec sampleStore (Stmt.insertSegment
        { key := sampleDuplicateSegment.key, name := sampleDuplicateSegment.name,
          description := sampleDuplicateSegment.description,
          matchType := sampleDuplicateSegment.matchType, createdAt := 5, updatedAt := 5 }) =
      (sampleStore, .error (GoError.sqlite3Error sqlite3ErrConstraint 1555)) ∧
    CreateSegment (memDriver Backend.sqlite3 true) sampleStore 5 sampleDuplicateSegment =
      (sampleStore, none, some (GoError.ErrInvalidf "segment %q is not unique" "s1")) ∧
    (∃ row ∈ sampleStore.segments, row.key = sampleDuplicateSegment.key) ∧
    CreateSegment (memDriver Backend.postgres true) sampleStore 5 sampleDuplicateSegment =
      (sampleStore, none, some (GoError.ErrInvalidf "segment %q is not unique" "s1")) :=
  ⟨rfl,
    ((C2_create_segment_not_unique (memDriver Backend.sqlite3 true) sampleStore 5
        sampleDuplicateSegment).1 sampleStore _ rfl).1 1555 rfl,
    by decide,
    (C2_create_segment_not_unique (memDriver Backend.sqlite3 true) sampleStore 5
        sampleDuplicateSegment).2.2 Backend.postgres true sampleStore (by decide)⟩

/-- C3. CreateConstraint, for any driver: when the insert fails with the
sqlite3 constraint code or with a postgres error named as the foreign-key
violation, the call fails with NotFound "segment <segmentKey>"; any other
execution error, a postgres unique violation among them, is returned
unchanged; no constraint is returned whenever an error is returned. On the
in-memory store, on both backends, creating a constraint with a fresh id for a
segment key that no segment has fails with that NotFound error and writes
nothing. -/
theorem C3_create_constraint_segment_not_found {σ : Type} (deps : Deps) (d : Driver σ) (s : σ)
    (now : Timestamp) (id : String) (r : CreateConstraintRequest) :
    (∀ s' err, d.exec s (Stmt.insertConstraint
          { id := id, segmentKey := r.segmentKey, type := r.type, property := r.property,
            operator := deps.ToLower r.operator,
            value := if deps.ToLower r.operator ∈ deps.NoValueOperators then "" else r.value,
            createdAt := now, updatedAt := now }) = (s', .error err) →
        ((∀ ext, err = GoError.sqlite3Error sqlite3ErrConstraint ext →
            CreateConstraint deps d s now id r =
              (s', none, some (GoError.ErrNotFoundf "segment %q" r.segmentKey))) ∧
         (err = GoError.pqError pgConstraintForeignKey →
            CreateConstraint deps d s now id r =
              (s', none, some (GoError.ErrNotFoundf "segment %q" r.segmentKey))) ∧
         ((∀ ext, err ≠ GoError.sqlite3Error sqlite3ErrConstraint ext) →
            err ≠ GoError.pqError pgConstraintForeignKey →
            CreateConstraint deps d s now id r = (s', none, some err)) ∧
         (err = GoError.pqError pgConstraintUnique →
            CreateConstraint deps d s now id r = (s', none, some err)))) ∧
    ((CreateConstraint deps d s now id r).2.2 ≠ none →
        (CreateConstraint deps d s now id r).2.1 = none) ∧
    (∀ (b : Backend) (cascade : Bool) (db : MemStore),
        (∀ row ∈ db.segments, row.key ≠ r.segmentKey) →
        (∀ c ∈ db.constraints, c.id ≠ id) →
        CreateConstraint deps (memDriver b cascade) db now id r =
          (db, none, some (GoError.ErrNotFoundf "segment %q" r.segmentKey))) := by
  have hq : ∀ s' err, d.exec s (Stmt.insertConstraint
          { id := id, segmentKey := r.segmentKey, type := r.type, property := r.property,
            operator := deps.ToLower r.operator,
            value := if deps.ToLower r.operator ∈ deps.NoValueOperators then "" else r.value,
            createdAt := now, updatedAt := now }) = (s', .error err) →
        (∀ ext, err ≠ GoError.sqlite3Error sqlite3ErrConstraint ext) →
        err ≠ GoError.pqError pgConstraintForeignKey →
        CreateConstraint deps d s now id r = (s', none, some err) := by
    intro s' err h h1 h2
    simp only [CreateConstraint]
    by_cases hop : deps.ToLower r.operator ∈ deps.NoValueOperators
    · simp only [hop, if_true] at h ⊢
      rw [h]
      cases err with
      | sqlite3Error code ext =>
        have hc : code ≠ sqlite3ErrConstraint := fun hc => h1 ext (by rw [hc])
        simp [hc]
      | pqError name =>
        have hc : name ≠ pgConstraintForeignKey := fun hc => h2 (by rw [hc])
        simp [hc]
      | _ => rfl
    · simp only [hop, if_false] at h ⊢
      rw [h]
      cases err with
      | sqlite3Error code ext =>
        have hc : code ≠ sqlite3ErrConstraint := fun hc => h1 ext (by rw [hc])
        simp [hc]
      | pqError name =>
        have hc : name ≠ pgConstraintForeignKey := fun hc => h2 (by rw [hc])
        simp [hc]
      | _ => rfl
  refine ⟨?_, ?_, ?_⟩
  · intro s' err h
    refine ⟨?_, ?_, hq s' err h, ?_⟩
    · intro ext he
      subst he
      by_cases hop : deps.ToLower r.operator ∈ deps.NoValueOperators <;>
        simp [hop] at h <;> simp [CreateConstraint, hop, h]
    · intro he
      subst he
      by_cases hop : deps.ToLower r.operator ∈ deps.NoValueOperators <;>
        simp [hop] at h <;> simp [CreateConstraint, hop, h]
    · intro he
      subst he
      exact hq s' _ h (fun ext => by simp) (by simp [pgConstraintUnique, pgConstraintForeignKey])
  · intro h
    simp only [CreateConstraint] at h ⊢
    split
    · split
      · split <;> rfl
      · split <;> rfl
      · rfl
    · rename_i heq
      rw [heq] at h
      exact absurd rfl h
  · intro b cascade db hseg hid
    have h1 : (db.constraints.any fun c => c.id == id) = false := by
      simp only [List.any_eq_false, beq_iff_eq]
      exact hid
    have h2 : (db.segments.any fun x => x.key == r.segmentKey) = false := by
      simp only [List.any_eq_false, beq_iff_eq]
      exact hseg
    cases b <;> by_cases hop : deps.ToLower r.operator ∈ deps.NoValueOperators <;>
      simp [CreateConstraint, memDriver, memExec, h1, h2, hop, foreignKeyViolation,
        sqlite3ErrConstraint, pgConstraintForeignKey]

/-- Witness of C3: on the postgres store a constraint of a missing segment is
rejected with the foreign-key error and CreateConstraint turns it into
NotFound; a duplicate id is rejected with the unique-violation error, which is
returned as it is; the sqlite3 store gives the same NotFound. -/
theorem C3_create_constraint_segment_not_found_witness :
    CreateConstraint sampleDeps (memDriver Backend.postgres true) sampleStore 5 "c2"
        sampleOrphanRequest =
      (sampleStore, none, some (GoError.ErrNotFoundf "segment %q" "nope")) ∧
    CreateConstraint sampleDeps (memDriver Backend.postgres true) sampleStore 5 "c1"
        samplePresentRequest =
      (sampleStore, none, some (GoError.pqError "unique_violation")) ∧
    (∀ row ∈ sampleStore.segments, row.key ≠ sampleOrphanRequest.segmentKey) ∧
    (∀ c ∈ sampleStore.constraints, c.id ≠ "c2") ∧
    CreateConstraint sampleDeps (memDriver Backend.sqlite3 true) sampleStore 5 "c2"
        sampleOrphanRequest =
      (sampleStore, none, some (GoError.ErrNotFoundf "segment %q" "nope")) :=
  ⟨((C3_create_constraint_segment_not_found sampleDeps (memDriver Backend.postgres true)
        sampleStore 5 "c2" sampleOrphanRequest).1 sampleStore
        (GoError.pqError pgConstraintForeignKey) rfl).2.1 rfl,
    ((C3_create_constraint_segment_not_found sampleDeps (memDriver Backend.postgres true)
        sampleStore 5 "c1" samplePresentRequest).1 sampleStore
        (GoError.pqError pgConstraintUnique) rfl).2.2.2 rfl,
    by decide, by decide,
    (C3_create_constraint_segment_not_found sampleDeps (memDriver Backend.sqlite3 true)
        sampleStore 5 "c2" sampleOrphanRequest).2.2 Backend.sqlite3 true sampleStore
      (by decide) (by decide)⟩

/-- C4. UpdateSegment on the in-memory store, for every store, clock value and
request. If no segment row has the request's key, the call fails with NotFound
"segment <key>" and the store is unchanged. If a row has the key (keys being
unique, as the primary key makes them), the call succeeds; in the new store
that row has the request's name, description and matchType, updatedAt equal to
the clock value, and its old key and createdAt; every other segment row and
every constraint row is as before; the returned segment is what GetSegment
returns on the new store, and carries those fields. For any driver, a write
that reports an affected-row count other than one makes the call fail with
that NotFound error. -/
theorem C4_update_segment (b : Backend) (cascade : Bool) (db : MemStore) (now : Timestamp)
    (r : UpdateSegmentRequest) :
    ((∀ row ∈ db.segments, row.key ≠ r.key) →
        UpdateSegment (memDriver b cascade) db now r =
          (db, none, some (GoError.ErrNotFoundf "segment %q" r.key))) ∧
    (∀ row ∈ db.segments, row.key = r.key → (db.segments.map (fun x => x.key)).Nodup →
        ∃ db' seg,
          UpdateSegment (memDriver b cascade) db now r = (db', some seg, none) ∧
          db'.segments = db.segments.map (fun x =>
            if x.key = r.key then
              { key := x.key, name := r.name, description := r.description,
                matchType := r.matchType, createdAt := x.createdAt, updatedAt := now }
            else x) ∧
          db'.constraints = db.constraints ∧
          GetSegment (memDriver b cascade) db' r.key = (some seg, none) ∧
          seg.key = r.key ∧ seg.name = r.name ∧ seg.description = r.description ∧
          seg.matchType = r.matchType ∧ seg.createdAt = row.createdAt ∧
          seg.updatedAt = now) ∧
    (∀ (σ : Type) (d : Driver σ) (s s' : σ) (count : Int),
        d.exec s (Stmt.updateSegment r.name r.description r.matchType now r.key) =
          (s', .ok { rowsAffected := .ok count }) →
        count ≠ 1 →
        UpdateSegment d s now r = (s', none, some (GoError.ErrNotFoundf "segment %q" r.key))) := by
  refine ⟨?_, ?_, fun σ d s s' count h hc => by simp [UpdateSegment, h, hc]⟩
  · intro h
    have hstate := UpdateSegment_mem_state b cascade db now r
    rw [map_update_absent db.segments r.key _ h] at hstate
    have hres : (UpdateSegment (memDriver b cascade) db now r).2 =
        (none, some (GoError.ErrNotFoundf "segment %q" r.key)) := by
      simp [UpdateSegment, memDriver, memExec, filter_key_eq_nil db.segments r.key h]
    exact Prod.ext hstate hres
  · intro row hrow hkey hnd
    have hsel : db.segments.filter (fun x => x.key == r.key) = [row] := by
      rw [← hkey]
      exact filter_key_eq_singleton db.segments row hnd hrow
    have hsel' : (db.segments.map (fun x =>
          if x.key = r.key then
            ({ x with name := r.name, description := r.description,
                      matchType := r.matchType, updatedAt := now } : SegmentRow)
          else x)).filter (fun x => x.key == r.key) =
        [{ row with name := r.name, description := r.description,
                    matchType := r.matchType, updatedAt := now }] := by
      rw [List.filter_map]
      have hcomp : ((fun x : SegmentRow => x.key == r.key) ∘ fun x : SegmentRow =>
          if x.key = r.key then
            ({ x with name := r.name, description := r.description,
                      matchType := r.matchType, updatedAt := now } : SegmentRow)
          else x) = fun x => x.key == r.key := by
        funext x
        by_cases hx : x.key = r.key <;> simp [hx]
      rw [hcomp, hsel]
      simp [hkey]
    have hget := GetSegment_mem_present b cascade
      { db with segments := db.segments.map (fun x =>
          if x.key = r.key then
            ({ x with name := r.name, description := r.description,
                      matchType := r.matchType, updatedAt := now } : SegmentRow)
          else x) } r.key _ [] hsel'
    refine ⟨{ db with segments := db.segments.map (fun x =>
          if x.key = r.key then
            ({ x with name := r.name, description := r.description,
                      matchType := r.matchType, updatedAt := now } : SegmentRow)
          else x) },
        { key := row.key, name := r.name, description := r.description,
          matchType := r.matchType, createdAt := row.createdAt, updatedAt := now,
          constraints := orderConstraints
            (db.constraints.filter (fun c => c.segmentKey == row.key)) },
        ?_, rfl, rfl, hget, hkey, rfl, rfl, rfl, rfl, rfl⟩
    simp only [UpdateSegment, memDriver, memExec, hsel]
    simp only [memDriver] at hget
    simp [hget]

/-- Witness of C4: on the sample store, updating the missing key "nope" fails with
NotFound and changes nothing, and updating "s1" at time 5 succeeds with the new
name, the old createdAt and updatedAt 5. -/
theorem C4_update_segment_witness :
    (∀ row ∈ sampleStore.segments, row.key ≠ "nope") ∧
    UpdateSegment (memDriver Backend.sqlite3 true) sampleStore 5
        { key := "nope", name := "N", description := "D", matchType := 1 } =
      (sampleStore, none, some (GoError.ErrNotFoundf "segment %q" "nope")) ∧
    sampleRow ∈ sampleStore.segments ∧ sampleRow.key = sampleUpdateSegment.key ∧
    (sampleStore.segments.map (fun x => x.key)).Nodup ∧
    (∃ db' seg,
      UpdateSegment (memDriver Backend.sqlite3 true) sampleStore 5 sampleUpdateSegment =
        (db', some seg, none) ∧
      seg.name = "N" ∧ seg.createdAt = 1 ∧ seg.updatedAt = 5) := by
  refine ⟨by decide, ?_, by decide, rfl, by decide, ?_⟩
  · exact (C4_update_segment Backend.sqlite3 true sampleStore 5
      { key := "nope", name := "N", description := "D", matchType := 1 }).1 (by decide)
  · obtain ⟨db', seg, h, -, -, -, -, h2, -, -, h3, h4⟩ :=
      (C4_update_segment Backend.sqlite3 true sampleStore 5 sampleUpdateSegment).2.1
        sampleRow (by decide) rfl (by decide)
    exact ⟨db', seg, h, h2, h3, h4⟩

/-- C5. UpdateConstraint on the in-memory store, for every store and request.
When no constraint row has both the request's id and its segmentKey, the call
fails with NotFound "constraint <id>" and the store is unchanged; with ids
unique, that is the case when the row with the request's id belongs to another
segment, and when no row has the id. In every case the list of (id,
segmentKey) pairs of the constraint rows is the same after the call as before,
and the segment rows are untouched. For any driver, a write that reports an
affected-row count other than one makes the call fail with that NotFound error. -/
theorem C5_update_constraint_matches_id_and_segment (deps : Deps) (b : Backend)
    (cascade : Bool) (db : MemStore) (now : Timestamp) (r : UpdateConstraintRequest) :
    ((∀ c ∈ db.constraints, ¬ (c.id = r.id ∧ c.segmentKey = r.segmentKey)) →
        UpdateConstraint deps (memDriver b cascade) db now r =
          (db, none, some (GoError.ErrNotFoundf "constraint %q" r.id))) ∧
    (∀ c ∈ db.constraints, c.id = r.id → c.segmentKey ≠ r.segmentKey →
        (db.constraints.map (fun c => c.id)).Nodup →
        UpdateConstraint deps (memDriver b cascade) db now r =
          (db, none, some (GoError.ErrNotFoundf "constraint %q" r.id))) ∧
    ((∀ c ∈ db.constraints, c.id ≠ r.id) →
        UpdateConstraint deps (memDriver b cascade) db now r =
          (db, none, some (GoError.ErrNotFoundf "constraint %q" r.id))) ∧
    ((UpdateConstraint deps (memDriver b cascade) db now r).1.constraints.map
        (fun c => (c.id, c.segmentKey)) = db.constraints.map (fun c => (c.id, c.segmentKey))) ∧
    ((UpdateConstraint deps (memDriver b cascade) db now r).1.segments = db.segments) ∧
    (∀ (σ : Type) (d : Driver σ) (s s' : σ) (count : Int),
        d.exec s (Stmt.updateConstraint r.type r.property (deps.ToLower r.operator)
            (if deps.ToLower r.operator ∈ deps.NoValueOperators then "" else r.value)
            now r.id r.segmentKey) = (s', .ok { rowsAffected := .ok count }) →
        count ≠ 1 →
        UpdateConstraint deps d s now r =
          (s', none, some (GoError.ErrNotFoundf "constraint %q" r.id))) := by
  refine ⟨UpdateConstraint_mem_no_match deps b cascade db now r, ?_, ?_, ?_, ?_,
    fun σ d s s' count h hc => by simp [UpdateConstraint, h, hc]⟩
  · intro c hc hid hseg hnd
    apply UpdateConstraint_mem_no_match
    intro c' hc' hm
    have hceq : c' = c := by
      apply List.inj_on_of_nodup_map hnd hc' hc
      rw [hm.1, hid]
    rw [hceq] at hm
    exact hseg hm.2
  · intro h
    apply UpdateConstraint_mem_no_match
    intro c hc hm
    exact h c hc hm.1
  · rw [UpdateConstraint_mem_state]
    simp only [List.map_map]
    apply List.map_congr_left
    intro c _
    by_cases hm : c.id = r.id ∧ c.segmentKey = r.segmentKey <;> simp [hm]
  · rw [UpdateConstraint_mem_state]

/-- Witness of C5: on the sample store, updating constraint "c1" under the
segment key "s2", which is not its own, fails with NotFound and changes nothing. -/
theorem C5_update_constraint_matches_id_and_segment_witness :
    sampleConstraint ∈ sampleStore.constraints ∧
    sampleConstraint.id = sampleWrongSegment.id ∧
    sampleConstraint.segmentKey ≠ sampleWrongSegment.segmentKey ∧
    (sampleStore.constraints.map (fun c => c.id)).Nodup ∧
    UpdateConstraint sampleDeps (memDriver Backend.postgres false) sampleStore 5
        sampleWrongSegment =
      (sampleStore, none, some (GoError.ErrNotFoundf "constraint %q" "c1")) :=
  ⟨by decide, rfl, by decide, by decide,
    (C5_update_constraint_matches_id_and_segment sampleDeps Backend.postgres false sampleStore 5
        sampleWrongSegment).2.1 sampleConstraint (by decide) rfl (by decide) (by decide)⟩

/-- C6. Deletes on the in-memory store, for every store and request.
DeleteSegment with a key no segment has returns no error and leaves the store
unchanged; DeleteConstraint with an (id, segmentKey) pair no constraint has,
in particular the id of a constraint of another segment, returns no error and
leaves the store unchanged. Both deletes always return no error, and running
either a second time on the store left by the first gives the same store and
the same nil result. For any driver, a delete whose statement executes returns
no error whatever the affected-row count. -/
theorem C6_delete_idempotent (b : Backend) (cascade : Bool) (db : MemStore)
    (rs : DeleteSegmentRequest) (rc : DeleteConstraintRequest) :
    ((∀ row ∈ db.segments, row.key ≠ rs.key) →
        DeleteSegment (memDriver b cascade) db rs = (db, none)) ∧
    ((∀ c ∈ db.constraints, ¬ (c.id = rc.id ∧ c.segmentKey = rc.segmentKey)) →
        DeleteConstraint (memDriver b cascade) db rc = (db, none)) ∧
    (∀ c ∈ db.constraints, c.id = rc.id → c.segmentKey ≠ rc.segmentKey →
        (db.constraints.map (fun c => c.id)).Nodup →
        DeleteConstraint (memDriver b cascade) db rc = (db, none)) ∧
    (DeleteSegment (memDriver b cascade) db rs).2 = none ∧
    (DeleteConstraint (memDriver b cascade) db rc).2 = none ∧
    (DeleteSegment (memDriver b cascade) (DeleteSegment (memDriver b cascade) db rs).1 rs =
        DeleteSegment (memDriver b cascade) db rs) ∧
    (DeleteConstraint (memDriver b cascade)
        (DeleteConstraint (memDriver b cascade) db rc).1 rc =
        DeleteConstraint (memDriver b cascade) db rc) ∧
    (∀ (σ : Type) (d : Driver σ) (s s' : σ) (res : ExecResult),
        (d.exec s (Stmt.deleteSegment rs.key) = (s', .ok res) →
          DeleteSegment d s rs = (s', none)) ∧
        (d.exec s (Stmt.deleteConstraint rc.id rc.segmentKey) = (s', .ok res) →
          DeleteConstraint d s rc = (s', none))) := by
  refine ⟨?_, DeleteConstraint_mem_no_match b cascade db rc, ?_, ?_, ?_, ?_, ?_,
    fun σ d s s' res => ⟨fun h => by simp [DeleteSegment, h],
      fun h => by simp [DeleteConstraint, h]⟩⟩
  · intro h
    rw [DeleteSegment_mem]
    have hsel := filter_key_eq_nil db.segments rs.key h
    have hf : db.segments.filter (fun x => !(x.key == rs.key)) = db.segments := by
      rw [List.filter_eq_self]
      intro x hx
      have := h x hx
      simpa using this
    rw [hsel, hf]
    simp
  · intro c hc hid hseg hnd
    apply DeleteConstraint_mem_no_match
    intro c' hc' hm
    have hceq : c' = c := by
      apply List.inj_on_of_nodup_map hnd hc' hc
      rw [hm.1, hid]
    rw [hceq] at hm
    exact hseg hm.2
  · rw [DeleteSegment_mem]
  · rw [DeleteConstraint_mem]
  · rw [DeleteSegment_mem b cascade db rs, DeleteSegment_mem]
    have hnone : (db.segments.filter (fun x => !(x.key == rs.key))).filter
        (fun x => x.key == rs.key) = [] := by
      rw [List.filter_eq_nil_iff]
      intro x hx
      have := (List.mem_filter.mp hx).2
      simpa using this
    simp only [hnone, List.filter_filter, Bool.and_self]
    simp
  · rw [DeleteConstraint_mem b cascade db rc, DeleteConstraint_mem]
    simp only [List.filter_filter, Bool.and_self]

/-- Witness of C6: on the sample store, deleting the missing segment "nope" and
deleting constraint "c1" under the segment key "s2" return no error and change
nothing. -/
theorem C6_delete_idempotent_witness :
    (∀ row ∈ sampleStore.segments, row.key ≠ "nope") ∧
    DeleteSegment (memDriver Backend.sqlite3 true) sampleStore { key := "nope" } =
      (sampleStore, none) ∧
    sampleConstraint ∈ sampleStore.constraints ∧
    sampleConstraint.segmentKey ≠ "s2" ∧
    DeleteConstraint (memDriver Backend.sqlite3 true) sampleStore
        { id := "c1", segmentKey := "s2" } = (sampleStore, none) :=
  ⟨by decide,
    (C6_delete_idempotent Backend.sqlite3 true sampleStore { key := "nope" }
        { id := "c1", segmentKey := "s2" }).1 (by decide),
    by decide, by decide,
    (C6_delete_idempotent Backend.sqlite3 true sampleStore { key := "nope" }
        { id := "c1", segmentKey := "s2" }).2.2.1 sampleConstraint (by decide) rfl (by decide)
      (by decide)⟩

/-- C7 (amended). ListSegments on the in-memory store, for every store and
every option list whose limit and offset are below 2^63 and which, on the
sqlite3 backend, has a positive limit whenever it has a positive offset. The
parameters are the options applied in order to a zeroed record. There is an
ordering of all segment rows, ascending in createdAt (the table order itself
when the table is already ascending), such that the call returns no error and
returns, decoded and each with its constraints, the rows of that ordering after
skipping the first `Offset` rows when `Offset` is positive and keeping at most
`Limit` rows when `Limit` is positive; a zero limit or offset is ignored. The
same holds, for that ordering, for the option lists a caller writes: none,
a limit, an offset, a limit and an offset. With limit 2 and offset 1 over five
segments stored in creation order, the rows returned are the second and the
third. -/
theorem C7_list_segments_pagination (b : Backend) (cascade : Bool) (db : MemStore)
    (opts : List QueryOption)
    (hl : (queryParams opts).Limit < 2 ^ 63) (ho : (queryParams opts).Offset < 2 ^ 63)
    (hs : b = Backend.sqlite3 → 0 < (queryParams opts).Offset → 0 < (queryParams opts).Limit) :
    queryParams [] = { Limit := 0, Offset := 0 } ∧
    (∀ (os : List QueryOption) (opt : QueryOption),
        queryParams (os ++ [opt]) = opt (queryParams os)) ∧
    (∀ (n : Nat) (p : QueryParams),
        WithLimit n p = { Limit := n, Offset := p.Offset } ∧
        WithOffset n p = { Limit := p.Limit, Offset := n }) ∧
    ∃ ordered : List SegmentRow,
      ordered.Perm db.segments ∧
      ordered.Pairwise (fun x y => x.createdAt ≤ y.createdAt) ∧
      (db.segments.Pairwise (fun x y => x.createdAt ≤ y.createdAt) → ordered = db.segments) ∧
      ListSegments (memDriver b cascade) db opts =
        ((specPage (queryParams opts).Limit (queryParams opts).Offset ordered).map
          (memSegment db), none) ∧
      ListSegments (memDriver b cascade) db [] = (ordered.map (memSegment db), none) ∧
      (∀ l : Nat, l < 2 ^ 63 →
        ListSegments (memDriver b cascade) db [WithLimit l] =
          ((specPage l 0 ordered).map (memSegment db), none)) ∧
      (∀ o : Nat, o < 2 ^ 63 → (b = Backend.sqlite3 → o = 0) →
        ListSegments (memDriver b cascade) db [WithOffset o] =
          ((specPage 0 o ordered).map (memSegment db), none)) ∧
      (∀ l o : Nat, l < 2 ^ 63 → o < 2 ^ 63 → (b = Backend.sqlite3 → 0 < o → 0 < l) →
        ListSegments (memDriver b cascade) db [WithLimit l, WithOffset o] =
          ((specPage l o ordered).map (memSegment db), none)) ∧
      (∀ s1 s2 s3 s4 s5 : SegmentRow, db.segments = [s1, s2, s3, s4, s5] →
        db.segments.Pairwise (fun x y => x.createdAt ≤ y.createdAt) →
        (ListSegments (memDriver b cascade) db [WithLimit 2, WithOffset 1]).2 = none ∧
        (ListSegments (memDriver b cascade) db [WithLimit 2, WithOffset 1]).1.map Segment.row
          = [s2, s3]) := by
  have hpage : ∀ (os : List QueryOption), (queryParams os).Limit < 2 ^ 63 →
      (queryParams os).Offset < 2 ^ 63 →
      (b = Backend.sqlite3 → 0 < (queryParams os).Offset → 0 < (queryParams os).Limit) →
      ListSegments (memDriver b cascade) db os =
        ((specPage (queryParams os).Limit (queryParams os).Offset
          (orderSegments db.segments)).map (memSegment db), none) := by
    intro os h1 h2 h3
    rw [ListSegments_mem b cascade db os h1 h2 h3]
    by_cases hlim : 0 < (queryParams os).Limit <;>
      by_cases hoff : 0 < (queryParams os).Offset <;> simp [page, specPage, hlim, hoff]
  refine ⟨rfl, ?_, fun n p => ⟨rfl, rfl⟩, orderSegments db.segments,
    List.perm_insertionSort _ _, List.sorted_insertionSort _ _,
    fun hsorted => List.Sorted.insertionSort_eq hsorted, hpage opts hl ho hs, ?_, ?_, ?_, ?_, ?_⟩
  · intro os opt
    simp [queryParams, List.foldl_append]
  · have h := hpage [] (by simp [queryParams]) (by simp [queryParams])
      (by simp [queryParams])
    rw [h]
    simp [queryParams, specPage]
  · intro l hlt
    exact hpage [WithLimit l] hlt (by simp [queryParams, WithLimit])
      (by simp [queryParams, WithLimit])
  · intro o hlt hsq
    refine hpage [WithOffset o] (by simp [queryParams, WithOffset]) hlt ?_
    intro hb hpos
    have hz := hsq hb
    simp only [queryParams, WithOffset, List.foldl] at hpos
    omega
  · intro l o hl' ho' hsq
    exact hpage [WithLimit l, WithOffset o] hl' ho' hsq
  · intro s1 s2 s3 s4 s5 hdb hsorted
    have hord : orderSegments db.segments = db.segments :=
      List.Sorted.insertionSort_eq hsorted
    have h := hpage [WithLimit 2, WithOffset 1] (by simp [queryParams, WithLimit, WithOffset])
      (by simp [queryParams, WithLimit, WithOffset])
      (by simp [queryParams, WithLimit, WithOffset])
    rw [h, hord, hdb]
    simp [queryParams, WithLimit, WithOffset, specPage, memSegment_row]

/-- Witness of C7: over the five segments of the list store, stored in creation
order, limit 2 with offset 1 is within the hypotheses on the sqlite3 backend
and returns the rows of the second and the third. -/
theorem C7_list_segments_pagination_witness :
    (queryParams [WithLimit 2, WithOffset 1]).Limit < 2 ^ 63 ∧
    (queryParams [WithLimit 2, WithOffset 1]).Offset < 2 ^ 63 ∧
    (0 < (queryParams [WithLimit 2, WithOffset 1]).Offset →
      0 < (queryParams [WithLimit 2, WithOffset 1]).Limit) ∧
    listStore.segments.Pairwise (fun x y => x.createdAt ≤ y.createdAt) ∧
    (ListSegments (memDriver Backend.sqlite3 true) listStore
        [WithLimit 2, WithOffset 1]).2 = none ∧
    (ListSegments (memDriver Backend.sqlite3 true) listStore
        [WithLimit 2, WithOffset 1]).1.map (fun seg => seg.key) = ["b", "c"] := by
  have hsorted : listStore.segments.Pairwise (fun x y => x.createdAt ≤ y.createdAt) := by
    decide
  obtain ⟨-, -, -, _, -, -, -, -, -, -, -, -, h⟩ :=
    C7_list_segments_pagination Backend.sqlite3 true listStore [WithLimit 2, WithOffset 1]
      (by decide) (by decide) (fun _ _ => by decide)
  obtain ⟨h1, h2⟩ := h _ _ _ _ _ rfl hsorted
  refine ⟨by decide, by decide, fun _ => by decide, hsorted, h1, ?_⟩
  have h3 := congrArg (List.map (fun row : SegmentRow => row.key)) h2
  simpa [Segment.row] using h3

/-- Counterexample to C7 as stated. On the sqlite3 backend, over the five
segments of the list store: with limit 2^63 the claim promises all five rows,
and with offset 1 and no limit it promises the last four, but in both cases the
engine rejects the statement and the call returns an error and no row. -/
theorem C7_list_segments_pagination_counterexample :
    ListSegments (memDriver Backend.sqlite3 true) listStore [WithLimit (2 ^ 63)] =
      ([], some (GoError.sqlite3Error 20 20)) ∧
    (specPage (2 ^ 63) 0 listStore.segments).length = 5 ∧
    ListSegments (memDriver Backend.sqlite3 true) listStore [WithOffset 1] =
      ([], some (GoError.sqlite3Error 1 1)) ∧
    (specPage 0 1 listStore.segments).length = 4 ∧
    ¬ (∃ ordered : List SegmentRow, ordered.Perm listStore.segments ∧
        (ListSegments (memDriver Backend.sqlite3 true) listStore [WithLimit (2 ^ 63)]).2 = none ∧
        (ListSegments (memDriver Backend.sqlite3 true) listStore [WithLimit (2 ^ 63)]).1.map
          Segment.row = specPage (2 ^ 63) 0 ordered) := by
  have h1 : ListSegments (memDriver Backend.sqlite3 true) listStore [WithLimit (2 ^ 63)] =
      ([], some (GoError.sqlite3Error 20 20)) := by
    rw [ListSegments_eq]
    simp [memDriver, memQuerySegments, listQuery, queryParams, WithLimit, outOfRange,
      rangeError]
  refine ⟨h1, by simp [specPage, listStore], ?_, by simp [specPage, listStore], ?_⟩
  · exact ListSegments_mem_offset_without_limit true listStore [WithOffset 1] rfl (by decide)
  · rintro ⟨ordered, -, herr, -⟩
    rw [h1] at herr
    cases herr

/-- C8. GetSegment on the in-memory store, for every store and key. If no
segment row has the key, the call fails with NotFound "segment <key>". If a row
has it, the call succeeds and the constraints of the returned segment are a
rearrangement of the constraint rows whose segmentKey is the key (each such
row once, no other row), in ascending createdAt order; when those rows were
inserted with non-decreasing createdAt, the constraints are those rows in
insertion order. -/
theorem C8_get_segment_constraints (b : Backend) (cascade : Bool) (db : MemStore)
    (key : String) :
    ((∀ row ∈ db.segments, row.key ≠ key) →
        GetSegment (memDriver b cascade) db key =
          (none, some (GoError.ErrNotFoundf "segment %q" key))) ∧
    ((∃ row ∈ db.segments, row.key = key) →
        ∃ seg, GetSegment (memDriver b cascade) db key = (some seg, none) ∧
          seg.key = key ∧
          seg.constraints.Perm (db.constraints.filter (fun c => c.segmentKey == key)) ∧
          (∀ c, c ∈ seg.constraints ↔ c ∈ db.constraints ∧ c.segmentKey = key) ∧
          seg.constraints.Pairwise (fun a b => a.createdAt ≤ b.createdAt) ∧
          ((db.constraints.filter (fun c => c.segmentKey == key)).Pairwise
              (fun a b => a.createdAt ≤ b.createdAt) →
            seg.constraints = db.constraints.filter (fun c => c.segmentKey == key))) := by
  refine ⟨GetSegment_mem_absent b cascade db key, ?_⟩
  rintro ⟨row, hrow, hkey⟩
  cases hsel : db.segments.filter (fun x => x.key == key) with
  | nil =>
    have hmem : row ∈ db.segments.filter (fun x => x.key == key) :=
      List.mem_filter.mpr ⟨hrow, by simpa using hkey⟩
    rw [hsel] at hmem
    cases hmem
  | cons first rest =>
    have hfirst : first.key = key := by
      have hmem : first ∈ db.segments.filter (fun x => x.key == key) := by
        rw [hsel]
        exact List.mem_cons_self _ _
      simpa using (List.mem_filter.mp hmem).2
    have hget := GetSegment_mem_present b cascade db key first rest hsel
    rw [hfirst] at hget
    have hperm : (orderConstraints (db.constraints.filter (fun c => c.segmentKey == key))).Perm
        (db.constraints.filter (fun c => c.segmentKey == key)) :=
      List.perm_insertionSort _ _
    refine ⟨_, hget, rfl, hperm, ?_, ?_, ?_⟩
    · intro c
      rw [hperm.mem_iff, List.mem_filter]
      simp
    · exact List.sorted_insertionSort _ _
    · intro hs
      exact List.Sorted.insertionSort_eq hs

/-- Witness of C8: in the list store the key "zz" is not found, and segment "a"
comes with its three constraints, and only those, in insertion order. -/
theorem C8_get_segment_constraints_witness :
    (∀ row ∈ listStore.segments, row.key ≠ "zz") ∧
    GetSegment (memDriver Backend.postgres true) listStore "zz" =
      (none, some (GoError.ErrNotFoundf "segment %q" "zz")) ∧
    (∃ row ∈ listStore.segments, row.key = "a") ∧
    (listStore.constraints.filter (fun c => c.segmentKey == "a")).Pairwise
      (fun x y => x.createdAt ≤ y.createdAt) ∧
    (∃ seg, GetSegment (memDriver Backend.postgres true) listStore "a" = (some seg, none) ∧
      seg.constraints.map (fun c => c.id) = ["k1", "k3", "k4"]) := by
  have hs : (listStore.constraints.filter (fun c => c.segmentKey == "a")).Pairwise
      (fun x y => x.createdAt ≤ y.createdAt) := by decide
  refine ⟨by decide, ?_, by decide, hs, ?_⟩
  · exact (C8_get_segment_constraints Backend.postgres true listStore "zz").1 (by decide)
  · obtain ⟨seg, h, -, -, -, -, hins⟩ :=
      (C8_get_segment_constraints Backend.postgres true listStore "a").2 (by decide)
    refine ⟨seg, h, ?_⟩
    rw [hins hs]
    decide

/-- C9. For any driver and every request: a CreateSegment that succeeds returns
a segment with createdAt equal to updatedAt and the request's key, name,
description and matchType, and the statement it executed is the insert of
exactly that segment's row; a CreateConstraint that succeeds returns a
constraint with createdAt equal to updatedAt, the request's segmentKey, type
and property, the lowercased operator and the normalised value, and the
statement it executed is the insert of exactly that constraint. A call that
returns no error returns an object. On the in-memory store the new store is
the old one with that row appended. -/
theorem C9_create_returns_inserted_row {σ : Type} (deps : Deps) (d : Driver σ) (s : σ)
    (now : Timestamp) (id : String) (rs : CreateSegmentRequest)
    (rc : CreateConstraintRequest) :
    (∀ s' seg, CreateSegment d s now rs = (s', some seg, none) →
        seg.createdAt = seg.updatedAt ∧ seg.key = rs.key ∧ seg.name = rs.name ∧
        seg.description = rs.description ∧ seg.matchType = rs.matchType ∧
        ∃ res, d.exec s (Stmt.insertSegment seg.row) = (s', .ok res)) ∧
    ((CreateSegment d s now rs).2.2 = none → ∃ seg, (CreateSegment d s now rs).2.1 = some seg) ∧
    (∀ s' c, CreateConstraint deps d s now id rc = (s', some c, none) →
        c.createdAt = c.updatedAt ∧ c.segmentKey = rc.segmentKey ∧ c.type = rc.type ∧
        c.property = rc.property ∧ c.operator = deps.ToLower rc.operator ∧
        c.value = (if deps.ToLower rc.operator ∈ deps.NoValueOperators then "" else rc.value) ∧
        ∃ res, d.exec s (Stmt.insertConstraint c) = (s', .ok res)) ∧
    ((CreateConstraint deps d s now id rc).2.2 = none →
        ∃ c, (CreateConstraint deps d s now id rc).2.1 = some c) ∧
    (∀ (b : Backend) (cascade : Bool) (db db' : MemStore) (seg : Segment),
        CreateSegment (memDriver b cascade) db now rs = (db', some seg, none) →
        db'.segments = db.segments ++ [seg.row] ∧ db'.constraints = db.constraints) ∧
    (∀ (b : Backend) (cascade : Bool) (db db' : MemStore) (c : Constraint),
        CreateConstraint deps (memDriver b cascade) db now id rc = (db', some c, none) →
        db'.constraints = db.constraints ++ [c] ∧ db'.segments = db.segments) := by
  refine ⟨?_, ?_, ?_, ?_, ?_, ?_⟩
  · intro s' seg h
    obtain ⟨hseg, hexec⟩ := CreateSegment_success d s now rs s' seg h
    refine ⟨?_, ?_, ?_, ?_, ?_, hexec⟩ <;> rw [hseg]
  · intro h
    rcases CreateSegment_shape d s now rs with ⟨err, he⟩ | ⟨seg, hs⟩
    · rw [he] at h
      cases h
    · exact ⟨seg, by rw [hs]⟩
  · intro s' c h
    obtain ⟨hc, hexec⟩ := CreateConstraint_success deps d s now id rc s' c h
    refine ⟨?_, ?_, ?_, ?_, ?_, ?_, hexec⟩ <;> rw [hc]
  · intro h
    rcases CreateConstraint_shape deps d s now id rc with ⟨err, he⟩ | ⟨c, hc⟩
    · rw [he] at h
      cases h
    · exact ⟨c, by rw [hc]⟩
  · intro b cascade db db' seg h
    exact CreateSegment_mem_success b cascade db db' now rs seg h
  · intro b cascade db db' c h
    exact CreateConstraint_mem_success deps b cascade db db' now id rc c h

/-- Witness of C9: on the sample store, creating segment "s2" and creating the
sample constraint at time 5 succeed, return objects with createdAt equal to
updatedAt, and append their rows. -/
theorem C9_create_returns_inserted_row_witness :
    CreateSegment (memDriver Backend.sqlite3 true) sampleStore 5 sampleNewSegment =
      ({ sampleStore with segments := sampleStore.segments ++
            [{ key := "s2", name := "two", description := "second", matchType := 1,
               createdAt := 5, updatedAt := 5 }] },
        some { key := "s2", name := "two", description := "second", matchType := 1,
               createdAt := 5, updatedAt := 5, constraints := [] }, none) ∧
    CreateConstraint sampleDeps (memDriver Backend.sqlite3 true) sampleStore 5 "c2"
        samplePresentRequest = (samplePresentStore, some samplePresent, none) ∧
    samplePresent.createdAt = samplePresent.updatedAt ∧
    samplePresentStore.constraints = sampleStore.constraints ++ [samplePresent] :=
  ⟨by decide, by decide,
    ((C9_create_returns_inserted_row sampleDeps (memDriver Backend.sqlite3 true) sampleStore 5
        "c2" sampleNewSegment samplePresentRequest).2.2.1 samplePresentStore samplePresent
        (by decide)).1,
    ((C9_create_returns_inserted_row sampleDeps (memDriver Backend.sqlite3 true) sampleStore 5
        "c2" sampleNewSegment samplePresentRequest).2.2.2.2.2 Backend.sqlite3 true sampleStore
        samplePresentStore samplePresent (by decide)).1⟩

/-- C10. A delete by another session commits between the write and the re-read:
the UPDATE of UpdateConstraint matched one row, its re-read finds none, and the
call returns `sql.ErrNoRows` unchanged, which is not a NotFound error; in the
same race UpdateSegment fails with NotFound "segment <key>". -/
theorem C10_update_constraint_race_returns_ErrNoRows :
    UpdateConstraint sampleDeps
        (interleaved (memDriver Backend.sqlite3 true) (Stmt.deleteConstraint "c1" "s1"))
        sampleStore 5
        { id := "c1", segmentKey := "s1", type := 1, property := "plan", operator := "EQ",
          value := "team" } =
      ({ sampleStore with constraints := [] }, none, some GoError.sqlErrNoRows) ∧
    (∀ format arg, GoError.sqlErrNoRows ≠ GoError.ErrNotFoundf format arg) ∧
    UpdateSegment
        (interleaved (memDriver Backend.sqlite3 true) (Stmt.deleteSegment "s1"))
        sampleStore 5 { key := "s1", name := "N", description := "D", matchType := 1 } =
      ({ segments := [], constraints := [] }, none,
        some (GoError.ErrNotFoundf "segment %q" "s1")) := by
  refine ⟨by decide, ?_, by decide⟩
  intro format arg h
  cases h

end Flipt
